import Mathlib

/-!
# Verification of the isoWorld procedural voxel engine

Shallow embedding of `src/services/IsoEngine.ts` (plus the constants of
`src/constants.ts`): the seeded PRNG (`SeededRandom`, a mulberry32 variant),
the 3D gradient noise (`PerlinNoise`), deterministic chunk generation,
the modification overlay, the lighting engine (sky pass + BFS propagation),
and the mutation entry points (`modifyBlock`, `placeBlock`).

Modelling conventions:
* JavaScript 32-bit integer operations (`Math.imul`, `^`, `|`, `>>>`) are
  modelled on `Nat` with explicit reduction `% 2^32`; the reductions agree
  with the ToInt32/ToUint32 coercions of the source because only the low 32
  bits of every intermediate are ever observed.
* JavaScript floating-point arithmetic inside the noise functions is
  modelled by exact fraction arithmetic (the type `Q` below, unnormalised
  integer fractions, so that every operation is kernel-computable).  Every
  PRNG output is the exact dyadic fraction `t / 2^32`, so the
  `Math.floor(prng.next() * k)` patterns of the source (k ≤ 256) are
  reproduced exactly; only the interior of the Perlin interpolation can
  differ from IEEE doubles by a rounding-sized amount, which no claim
  under verification depends on.  Decimal literals such as `0.012` are
  modelled by the exact decimal fraction they denote.
* JavaScript arrays are modelled as `List`s with total accessors: a read
  out of range yields the `undefined`-like default, a write beyond the
  current length pads exactly as a JS array extends, and a write at a
  negative index is invisible to all integer-indexed reads, hence a no-op.
* The `while` loop of the light BFS is given explicit fuel and reports
  whether the queue was exhausted (the loop finished); the bounded retry
  loop of jungle tree placement recurses on its own `attempts` counter.
-/

/-! ## Exact fraction arithmetic (JS `number` model) -/

/-- An exact fraction `n / d` with positive denominator, never normalised,
so that all arithmetic is plain integer arithmetic (kernel-computable). -/
structure Q where
  n : Int
  d : Int
  deriving DecidableEq, Repr

def Q.ofInt (i : Int) : Q := ⟨i, 1⟩

def qadd (a b : Q) : Q := ⟨a.n * b.d + b.n * a.d, a.d * b.d⟩

def qsub (a b : Q) : Q := ⟨a.n * b.d - b.n * a.d, a.d * b.d⟩

def qmul (a b : Q) : Q := ⟨a.n * b.n, a.d * b.d⟩

def qneg (a : Q) : Q := ⟨-a.n, a.d⟩

/-- `Math.abs`. -/
def qabs (a : Q) : Q := ⟨a.n.natAbs, a.d⟩

/-- Division, sign-corrected so the denominator stays positive; division by
zero (which the engine never performs) yields 0. -/
def qdiv (a b : Q) : Q :=
  if b.n = 0 then ⟨0, 1⟩
  else if 0 ≤ b.n then ⟨a.n * b.d, a.d * b.n⟩
  else ⟨-(a.n * b.d), a.d * (-b.n)⟩

/-- Strict comparison by cross-multiplication (valid: denominators > 0). -/
def qltb (a b : Q) : Bool := a.n * b.d < b.n * a.d

def qleb (a b : Q) : Bool := a.n * b.d ≤ b.n * a.d

/-- `Math.floor` on an exact fraction: floor division. -/
def qfloor (a : Q) : Int := Int.fdiv a.n a.d

/-! ## 32-bit helpers and the seeded PRNG (`SeededRandom`, IsoEngine.ts lines 6-24) -/

def U32MOD : Nat := 4294967296

/-- `Math.imul`: 32-bit multiply, observed modulo 2^32. -/
def imul32 (a b : Nat) : Nat := (a * b) % U32MOD

/-- The string-folding hash of the `SeededRandom` constructor:
`h = 1779033703`, then for each char `h = Math.imul(h ^ code, 3432918353)`. -/
def seedHash (seedStr : String) : Nat :=
  seedStr.data.foldl (fun h c => imul32 (Nat.xor h c.toNat) 3432918353) 1779033703

/-- One mulberry32 draw: returns the advanced state and the 32-bit output `t`.
The stored state accumulates `+ 0x6D2B79F5` exactly as the source field does;
all mixing reduces modulo 2^32 as the JS bitwise coercions do. -/
def srNext (s : Nat) : Nat × Nat :=
  let s1 := s + 0x6D2B79F5
  let t0 := s1 % U32MOD
  let t1 := imul32 (Nat.xor t0 (t0 >>> 15)) (t0 ||| 1)
  let t2 := Nat.xor t1 ((t1 + imul32 (Nat.xor t1 (t1 >>> 7)) (t1 ||| 61)) % U32MOD)
  let t3 := Nat.xor t2 (t2 >>> 14)
  (s1, t3)

/-- The float in `[0,1)` produced by `SeededRandom.next`: exactly `t / 2^32`. -/
def srNextQ (s : Nat) : Nat × Q :=
  ((srNext s).1, ⟨((srNext s).2 : Int), (U32MOD : Int)⟩)

/-! ## Perlin noise (`PerlinNoise`, IsoEngine.ts lines 26-88) -/

/-- Draw `n` table entries `Math.floor(prng.next() * 256)`, threading the PRNG. -/
def permDraws : Nat → Nat → List Nat × Nat
  | 0, s => ([], s)
  | n + 1, s =>
    let s1 := (srNextQ s).1
    let q := (srNextQ s).2
    let v := (qfloor (qmul q (Q.ofInt 256))).toNat
    (v :: (permDraws n s1).1, (permDraws n s1).2)

/-- The 256-entry table the `PerlinNoise` constructor builds from the PRNG. -/
def buildPermutation (seedStr : String) : List Nat :=
  (permDraws 256 (seedHash seedStr)).1

/-- The doubled 512-entry lookup table `p[i] = permutation[i % 256]`. -/
def buildP (seedStr : String) : List Nat :=
  let perm := buildPermutation seedStr
  (List.range 512).map fun i => perm.getD (i % 256) 0

/-- `fade(t) = t*t*t*(t*(t*6-15)+10)`. -/
def fadeQ (t : Q) : Q :=
  qmul (qmul (qmul t t) t) (qadd (qmul t (qsub (qmul t (Q.ofInt 6)) (Q.ofInt 15))) (Q.ofInt 10))

/-- `lerp(t, a, b) = a + t * (b - a)`. -/
def lerpQ (t a b : Q) : Q := qadd a (qmul t (qsub b a))

/-- `grad(hash, x, y, z)` of the source, selecting gradient components from
the low 4 bits of the hash. -/
def gradQ (hash : Nat) (x y z : Q) : Q :=
  let h := hash % 16
  let u := if h < 8 then x else y
  let v := if h < 4 then y else if h == 12 || h == 14 then x else z
  qadd (if h % 2 == 0 then u else qneg u) (if h / 2 % 2 == 0 then v else qneg v)

/-- `Math.floor(x) & 255` for a possibly negative JS number: the bitwise AND
acts on the two's-complement pattern, i.e. it is reduction modulo 256. -/
def floorAnd255 (x : Q) : Nat := ((qfloor x) % 256).toNat

/-- Fractional part `x - Math.floor(x)`. -/
def fracQ (x : Q) : Q := qsub x (Q.ofInt (qfloor x))

/-- `PerlinNoise.noise(x, y, z)` over an arbitrary 512-entry lookup table. -/
def pnoise (p : List Nat) (x y z : Q) : Q :=
  let X := floorAnd255 x
  let Y := floorAnd255 y
  let Z := floorAnd255 z
  let xf := fracQ x
  let yf := fracQ y
  let zf := fracQ z
  let u := fadeQ xf
  let v := fadeQ yf
  let w := fadeQ zf
  let A := p.getD X 0 + Y
  let AA := p.getD A 0 + Z
  let AB := p.getD (A + 1) 0 + Z
  let B := p.getD (X + 1) 0 + Y
  let BA := p.getD B 0 + Z
  let BB := p.getD (B + 1) 0 + Z
  let xm := qsub xf (Q.ofInt 1)
  let ym := qsub yf (Q.ofInt 1)
  let zm := qsub zf (Q.ofInt 1)
  lerpQ w
    (lerpQ v
      (lerpQ u (gradQ (p.getD AA 0) xf yf zf) (gradQ (p.getD BA 0) xm yf zf))
      (lerpQ u (gradQ (p.getD AB 0) xf ym zf) (gradQ (p.getD BB 0) xm ym zf)))
    (lerpQ v
      (lerpQ u (gradQ (p.getD (AA + 1) 0) xf yf zm) (gradQ (p.getD (BA + 1) 0) xm yf zm))
      (lerpQ u (gradQ (p.getD (AB + 1) 0) xf ym zm) (gradQ (p.getD (BB + 1) 0) xm ym zm)))

/-! ## Block model and constants (constants.ts, types.ts) -/

def MIN_CHUNK_SIZE : Nat := 30
def MAX_CHUNK_SIZE : Nat := 50
def WORLD_HEIGHT : Nat := 70
def MINE_SPEED : Int := 1

inductive BlockType where
  | AIR | GRASS | DIRT | STONE | BEDROCK | LOG | LEAVES
  | SAND | VINE | ICE | SPRUCE_LOG | SPRUCE_LEAVES | WOODEN_PLANKS
  deriving DecidableEq, Repr

open BlockType

/-- The fields of `BLOCK_DEFINITIONS` the engine logic reads. -/
structure BlockConfig where
  hp : Int
  lightDampening : Nat
  lightEmission : Nat
  deriving DecidableEq, Repr

def BLOCK_DEFINITIONS : BlockType → BlockConfig
  | AIR => ⟨0, 1, 0⟩
  | GRASS => ⟨30, 16, 0⟩
  | DIRT => ⟨25, 16, 0⟩
  | STONE => ⟨60, 16, 0⟩
  | BEDROCK => ⟨99999, 16, 0⟩
  | LOG => ⟨40, 16, 0⟩
  | LEAVES => ⟨10, 2, 0⟩
  | SAND => ⟨20, 16, 0⟩
  | VINE => ⟨5, 2, 0⟩
  | ICE => ⟨20, 2, 0⟩
  | SPRUCE_LOG => ⟨40, 16, 0⟩
  | SPRUCE_LEAVES => ⟨10, 2, 0⟩
  | WOODEN_PLANKS => ⟨35, 16, 0⟩

/-- A `BlockInstance`: `variant` and `isNatural` are the optional
(duck-typed, possibly absent) fields of the source objects. -/
structure Block where
  type : BlockType
  hp : Int
  isNatural : Option Bool := none
  variant : Option String := none
  deriving DecidableEq, Repr

/-- A freshly generated block of type `t` at full durability. -/
def mkBlock (t : BlockType) : Block := ⟨t, (BLOCK_DEFINITIONS t).hp, none, none⟩

def mkNatural (t : BlockType) : Block := ⟨t, (BLOCK_DEFINITIONS t).hp, some true, none⟩

inductive BiomeType where
  | GRASSLAND | DESERT | JUNGLE | SNOW | PRAIRIE
  deriving DecidableEq, Repr

inductive GameMode where
  | CAMERA | EDIT
  deriving DecidableEq, Repr

/-! ## JS-array grids

`WorldMap` is `map[z][y][x] : BlockInstance | null`; `undefined` (hole /
out of range) and `null` both behave as "no block" for every read the
engine performs, so both are modelled as `none`. -/

abbrev GridMap := List (List (List (Option Block)))

abbrev LightGrid := List (List (List Nat))

/-- Write `v` at index `i`, extending with `dflt` exactly as a JS array
extends (holes read back as the same default the getter uses). -/
def setAt {α : Type} : List α → Nat → α → α → List α
  | [], 0, _, v => [v]
  | [], i + 1, dflt, v => dflt :: setAt [] i dflt v
  | _ :: rest, 0, _, v => v :: rest
  | a :: rest, i + 1, dflt, v => a :: setAt rest i dflt v

/-- `map[z]?.[y]?.[x]`, with both `undefined` and `null` read as `none`;
a negative index reads a non-index property, hence `undefined`. -/
def getB (m : GridMap) (x y z : Int) : Option Block :=
  if 0 ≤ x ∧ 0 ≤ y ∧ 0 ≤ z then
    ((m.getD z.toNat []).getD y.toNat []).getD x.toNat none
  else none

/-- `map[z][y][x] = b` (with the `if (!map[z]) ...` row creation of the
source); a write at a negative index is invisible to integer reads. -/
def setB (m : GridMap) (x y z : Int) (b : Option Block) : GridMap :=
  if 0 ≤ x ∧ 0 ≤ y ∧ 0 ≤ z then
    let plane := m.getD z.toNat []
    let row := plane.getD y.toNat []
    setAt m z.toNat [] (setAt plane y.toNat [] (setAt row x.toNat none b))
  else m

/-- Guarded write `if (map[z]?.[y]?.[x] === null) map[z][y][x] = b`: within
the generated grid every in-range cell is materialised, so the `=== null`
test coincides with the total getter returning `none`. -/
def setIfAir (m : GridMap) (x y z : Int) (b : Option Block) : GridMap :=
  if getB m x y z = none then setB m x y z b else m

def getL (lm : LightGrid) (x y z : Int) : Nat :=
  if 0 ≤ x ∧ 0 ≤ y ∧ 0 ≤ z then
    ((lm.getD z.toNat []).getD y.toNat []).getD x.toNat 0
  else 0

def setL (lm : LightGrid) (x y z : Int) (v : Nat) : LightGrid :=
  if 0 ≤ x ∧ 0 ≤ y ∧ 0 ≤ z then
    let plane := lm.getD z.toNat []
    let row := plane.getD y.toNat []
    setAt lm z.toNat [] (setAt plane y.toNat [] (setAt row x.toNat 0 v))
  else lm

/-! ## Association-list model of JS `Map` (insertion order, replace-in-place) -/

def lookupA {β : Type} (l : List (String × β)) (k : String) : Option β :=
  (l.find? (fun kv => kv.1 = k)).map (·.2)

def setA {β : Type} : List (String × β) → String → β → List (String × β)
  | [], k, v => [(k, v)]
  | kv :: rest, k, v => if kv.1 = k then (k, v) :: rest else kv :: setA rest k v

/-! ## Biome classification and per-biome generation parameters
(`IsoEngine.getBiomeAt` lines 459-470 and the `switch` of `generateChunk`) -/

def getBiomeAt (worldSeed : String) (chunkX chunkY : Int) : BiomeType :=
  let pT := buildP (worldSeed ++ "-temp")
  let pH := buildP (worldSeed ++ "-humid")
  let scale : Q := ⟨1, 10⟩
  let temperature := pnoise pT (qmul (Q.ofInt chunkX) scale) (qmul (Q.ofInt chunkY) scale) (Q.ofInt 0)
  let humidity := pnoise pH (qmul (Q.ofInt chunkX) scale) (qmul (Q.ofInt chunkY) scale) (Q.ofInt 0)
  if qltb temperature ⟨-5, 10⟩ then BiomeType.SNOW
  else if qltb ⟨5, 10⟩ temperature then BiomeType.DESERT
  else if qltb ⟨3, 10⟩ humidity then BiomeType.JUNGLE
  else if qltb humidity ⟨-3, 10⟩ then BiomeType.PRAIRIE
  else BiomeType.GRASSLAND

structure BiomeParams where
  surfaceBlock : BlockType
  underSurfaceBlock : BlockType
  minTreeHeight : Nat
  maxTreeHeight : Nat
  treeChance : Q
  placeTrees : Bool
  hasVines : Bool
  baseHeightModifier : Q

def biomeParams : BiomeType → BiomeParams
  | BiomeType.SNOW => ⟨GRASS, DIRT, 4, 8, ⟨15, 1000⟩, true, false, ⟨45, 100⟩⟩
  | BiomeType.JUNGLE => ⟨GRASS, DIRT, 15, 25, ⟨0, 1⟩, true, true, ⟨5, 10⟩⟩
  | BiomeType.PRAIRIE => ⟨GRASS, DIRT, 2, 4, ⟨5, 1000⟩, true, false, ⟨6, 10⟩⟩
  | BiomeType.DESERT => ⟨SAND, SAND, 0, 0, ⟨0, 1⟩, false, false, ⟨5, 10⟩⟩
  | BiomeType.GRASSLAND => ⟨GRASS, DIRT, 3, 6, ⟨1, 100⟩, true, false, ⟨55, 100⟩⟩

/-- The per-biome height-noise closure of `generateChunk`, evaluated at a
column; `gx = x + chunkX*MAX_CHUNK_SIZE`, `gy = y + chunkY*MAX_CHUNK_SIZE`. -/
def heightNoiseAt (biome : BiomeType) (p : List Nat) (offsetX offsetY : Int) (x y : Nat) : Q :=
  let gx := Q.ofInt ((x : Int) + offsetX)
  let gy := Q.ofInt ((y : Int) + offsetY)
  let z0 := Q.ofInt 0
  match biome with
  | BiomeType.SNOW =>
    qadd (qmul (pnoise p (qmul gx ⟨12, 1000⟩) (qmul gy ⟨12, 1000⟩) z0) (Q.ofInt 20))
      (qmul (pnoise p (qmul gx ⟨5, 100⟩) (qmul gy ⟨5, 100⟩) z0) (Q.ofInt 2))
  | BiomeType.JUNGLE =>
    qadd (qmul (pnoise p (qmul gx ⟨2, 100⟩) (qmul gy ⟨2, 100⟩) z0) (Q.ofInt 12))
      (qmul (qabs (pnoise p (qmul gx ⟨8, 100⟩) (qmul gy ⟨8, 100⟩) z0)) (Q.ofInt 4))
  | BiomeType.PRAIRIE =>
    qmul (pnoise p (qmul gx ⟨1, 100⟩) (qmul gy ⟨1, 100⟩) z0) (Q.ofInt 6)
  | BiomeType.DESERT =>
    qmul (qabs (pnoise p (qmul gx ⟨25, 1000⟩) (qmul gy ⟨25, 1000⟩) z0)) (Q.ofInt 10)
  | BiomeType.GRASSLAND =>
    qmul (pnoise p (qmul gx ⟨15, 1000⟩) (qmul gy ⟨15, 1000⟩) z0) (Q.ofInt 10)

/-- `Math.max(1, Math.min(WORLD_HEIGHT-1, Math.floor(baseHeight + noise(x,y))))`. -/
def surfaceHeightAt (biome : BiomeType) (p : List Nat) (offsetX offsetY : Int)
    (baseHeight : Nat) (x y : Nat) : Int :=
  max 1 (min ((WORLD_HEIGHT : Int) - 1)
    (qfloor (qadd (Q.ofInt baseHeight) (heightNoiseAt biome p offsetX offsetY x y))))

/-! ## Column fill with cave carving and border blending
(`generateChunk` lines 593-658) -/

/-- The cave test of the column fill: the 3D noise magnitude lies in the
tunnel band `(-0.16, 0.16)` AND `z < surfaceHeight - 12`. -/
def caveAt (p : List Nat) (gx gy : Int) (z : Nat) (surfaceHeight : Int) : Bool :=
  let caveScale : Q := ⟨4, 100⟩
  let n3d := pnoise p (qmul (Q.ofInt gx) caveScale) (qmul (Q.ofInt gy) caveScale)
    (qmul (qmul (Q.ofInt z) caveScale) ⟨15, 10⟩)
  qltb (qabs n3d) ⟨16, 100⟩ && decide ((z : Int) < surfaceHeight - 12)

/-- `shouldBleed(dist, seedX, seedY)` of the border-blending step. -/
def shouldBleed (p : List Nat) (dist : Int) (seedX seedY : Int) : Bool :=
  decide (dist < 6) &&
    qltb (qdiv (Q.ofInt dist) (Q.ofInt 6))
      (qdiv (qadd (pnoise p (qmul (Q.ofInt seedX) ⟨5, 10⟩) (qmul (Q.ofInt seedY) ⟨5, 10⟩) (Q.ofInt 0)) (Q.ofInt 1)) (Q.ofInt 2))

/-- The surface-layer block with biome border blending (snow variant and
desert sand bleed from the four orthogonal neighbour biomes). -/
def surfaceBlockAt (p : List Nat) (bp : BiomeParams) (size x y : Nat)
    (nB sB wB eB : BiomeType) : Block :=
  let distToN : Int := y
  let distToS : Int := (size : Int) - 1 - y
  let distToW : Int := x
  let distToE : Int := (size : Int) - 1 - x
  let isSnowy :=
    (nB = BiomeType.SNOW && shouldBleed p distToN x 0) ||
    (sB = BiomeType.SNOW && shouldBleed p distToS x size) ||
    (wB = BiomeType.SNOW && shouldBleed p distToW 0 y) ||
    (eB = BiomeType.SNOW && shouldBleed p distToE size y)
  let finalBlockType :=
    if (nB = BiomeType.DESERT && shouldBleed p distToN x 0) ||
       (sB = BiomeType.DESERT && shouldBleed p distToS x size) ||
       (wB = BiomeType.DESERT && shouldBleed p distToW 0 y) ||
       (eB = BiomeType.DESERT && shouldBleed p distToE size y)
    then SAND else bp.surfaceBlock
  { type := finalBlockType
    hp := (BLOCK_DEFINITIONS finalBlockType).hp
    isNatural := none
    variant := if isSnowy then some "SNOWY" else none }

/-- The body of the triple generation loop: the block generated at local
`(x, y, z)` before craters, lakes, structures and the overlay. -/
def columnBlock (p : List Nat) (bp : BiomeParams) (biome : BiomeType) (baseHeight : Nat)
    (chunkX chunkY : Int) (size : Nat) (nB sB wB eB : BiomeType) (x y z : Nat) : Option Block :=
  if z = 0 then some (mkBlock BEDROCK)
  else
    let offsetX := chunkX * (MAX_CHUNK_SIZE : Int)
    let offsetY := chunkY * (MAX_CHUNK_SIZE : Int)
    let sh := surfaceHeightAt biome p offsetX offsetY baseHeight x y
    if (z : Int) ≤ sh then
      let gx := chunkX * (MAX_CHUNK_SIZE : Int) + x
      let gy := chunkY * (MAX_CHUNK_SIZE : Int) + y
      if caveAt p gx gy z sh then none
      else if (z : Int) < sh - 4 then some (mkBlock STONE)
      else if (z : Int) < sh then some (mkBlock bp.underSurfaceBlock)
      else some (surfaceBlockAt p bp size x y nB sB wB eB)
    else none

/-- The base grid `map[z][y][x]` produced by the triple loop. -/
def buildBaseMap (p : List Nat) (bp : BiomeParams) (biome : BiomeType) (baseHeight : Nat)
    (chunkX chunkY : Int) (size : Nat) (nB sB wB eB : BiomeType) : GridMap :=
  (List.range WORLD_HEIGHT).map fun z =>
    (List.range size).map fun y =>
      (List.range size).map fun x =>
        columnBlock p bp biome baseHeight chunkX chunkY size nB sB wB eB x y z

/-! ## Orb crater and snow lakes (`generateChunk` lines 660-700) -/

/-- The crater excavated above the orb in chunk (0,0): all blocks with
`z ∈ [40, WORLD_HEIGHT)` within the 5x5 square around the chunk centre
are destroyed. -/
def orbExcavate (m : GridMap) (size : Nat) : GridMap :=
  let c : Int := (size / 2 : Nat)
  (List.range (WORLD_HEIGHT - 40)).foldl (fun m dz =>
    let z : Int := 40 + dz
    (List.range 5).foldl (fun m dy =>
      let y : Int := c - 2 + dy
      (List.range 5).foldl (fun m dx =>
        let x : Int := c - 2 + dx
        if 0 ≤ y ∧ y < (size : Int) ∧ 0 ≤ x ∧ x < (size : Int) then setB m x y z none
        else m) m) m) m

/-- Topmost `z` whose cell holds a block, or -1 (the `surfaceZ` scans). -/
def topmostSolid (m : GridMap) (x y : Int) : Int :=
  ((List.range WORLD_HEIGHT).foldl (fun (acc : Option Int) dz =>
    match acc with
    | some z => some z
    | none =>
      let z : Int := (WORLD_HEIGHT : Int) - 1 - dz
      if getB m x y z ≠ none then some z else none) none).getD (-1)

/-- The frozen-lake pass of snow chunks: columns whose surface lies below
`baseHeight - 4` are flooded with ice up to that level, and a grass block
directly below the new ice becomes dirt (its hp is kept). -/
def lakePass (m : GridMap) (size baseHeight : Nat) : GridMap :=
  let lakeLevel : Int := (baseHeight : Int) - 4
  (List.range size).foldl (fun m y =>
    (List.range size).foldl (fun m x =>
      let surfaceZ := topmostSolid m x y
      if surfaceZ ≠ -1 ∧ surfaceZ < lakeLevel then
        let m := (List.range (lakeLevel - surfaceZ).toNat).foldl (fun m i =>
          setB m x y (surfaceZ + 1 + i) (some (mkBlock ICE))) m
        match getB m x y surfaceZ with
        | some b => if b.type = GRASS then setB m x y surfaceZ (some { b with type := DIRT }) else m
        | none => m
      else m) m) m

/-! ## Structure generation (`generateIceSpike`, `growSpruceTree`,
`growJungleTree`, `growRegularTree`, lines 868-1072) -/

/-- `map[z]?.[y]?.[x]?.type` (optional chaining). -/
def typeAt (m : GridMap) (x y z : Int) : Option BlockType := (getB m x y z).map (·.type)

/-- Hang a vine column downward from `z`, stopping at the first occupied
cell or at `z ≤ 0` (the `break` of the vine loops). -/
def placeVine (m : GridMap) (x y : Int) : Int → Nat → GridMap
  | _, 0 => m
  | z, count + 1 =>
    if 0 < z ∧ getB m x y z = none then
      placeVine (setB m x y z (some (mkNatural VINE))) x y (z - 1) count
    else m

def growSpruceTree (m : GridMap) (x y startZ : Int) (chunkSize : Nat) (s : Nat)
    (minH maxH : Nat) : GridMap × Nat :=
  let s1 := (srNextQ s).1
  let q := (srNextQ s).2
  let treeHeight : Nat := minH + (qfloor (qmul q (Q.ofInt (maxH - minH + 1)))).toNat
  if startZ + treeHeight + 1 ≥ (WORLD_HEIGHT : Int) then (m, s1)
  else
    let m := (List.range treeHeight).foldl (fun m h =>
      let z := startZ + h
      if z < (WORLD_HEIGHT : Int) then setB m x y z (some (mkNatural SPRUCE_LOG)) else m) m
    let res := (List.range treeHeight).foldl
      (fun (acc : GridMap × Nat × Nat) layerFromTop =>
        let (m, s, radius) := acc
        let lz := startZ + treeHeight - layerFromTop
        let radius := if layerFromTop % 2 = 0 then radius + 1 else radius
        let cr : Nat := min 2 radius
        let inner := (List.range (2 * cr + 1)).foldl (fun (acc2 : GridMap × Nat) dy =>
          let ly : Int := y - cr + dy
          (List.range (2 * cr + 1)).foldl (fun (acc3 : GridMap × Nat) dx =>
            let (m, s) := acc3
            let lx : Int := x - cr + dx
            let corner := (lx - x).natAbs = cr ∧ (ly - y).natAbs = cr
            let write := fun (m : GridMap) =>
              if 0 ≤ ly ∧ ly < (chunkSize : Int) ∧ 0 ≤ lx ∧ lx < (chunkSize : Int) then
                setIfAir m lx ly lz (some (mkNatural SPRUCE_LEAVES))
              else m
            if corner then
              let s2 := (srNextQ s).1
              let q2 := (srNextQ s).2
              if qltb ⟨25, 100⟩ q2 then (m, s2) else (write m, s2)
            else (write m, s)) acc2) (m, s)
        (inner.1, inner.2, radius)) (m, s1, 0)
    (res.1, res.2.1)

/-- The shared trunk column write of spruce and regular trees (one log
per layer, height-clamped). -/
def trunkColumn (m : GridMap) (x y startZ : Int) (treeHeight : Nat) (t : BlockType) :
    GridMap :=
  (List.range treeHeight).foldl (fun m h =>
    let z := startZ + h
    if z < (WORLD_HEIGHT : Int) then setB m x y z (some (mkNatural t)) else m) m

/-- The 2x2 jungle trunk columns. -/
def jungleTrunk (m : GridMap) (x y startZ : Int) (treeHeight : Nat) : GridMap :=
  (List.range treeHeight).foldl (fun m h =>
    let z := startZ + h
    (List.range 2).foldl (fun m dx =>
      (List.range 2).foldl (fun m dy =>
        setB m (x + dx) (y + dy) z (some (mkNatural LOG))) m) m) m

/-- The roughly spherical jungle canopy: a 5x8x8 box of guarded leaf
writes, one PRNG draw per cell. -/
def jungleCanopy (x y canopyCenterZ : Int) (chunkSize : Nat) (acc0 : GridMap × Nat) :
    GridMap × Nat :=
  (List.range 5).foldl (fun (acc : GridMap × Nat) i =>
    let lz := canopyCenterZ - 2 + i
    (List.range 8).foldl (fun (acc2 : GridMap × Nat) j =>
      let ly : Int := y - 3 + j
      (List.range 8).foldl (fun (acc3 : GridMap × Nat) k =>
        let (m, s) := acc3
        let lx : Int := x - 3 + k
        let dxq := qsub (Q.ofInt lx) (qadd (Q.ofInt x) ⟨5, 10⟩)
        let dyq := qsub (Q.ofInt ly) (qadd (Q.ofInt y) ⟨5, 10⟩)
        let dzq := Q.ofInt (lz - canopyCenterZ)
        let distSq := qadd (qadd (qmul dxq dxq) (qmul dyq dyq)) (qmul dzq dzq)
        let s2 := (srNextQ s).1
        let q2 := (srNextQ s).2
        if qltb distSq (qmul (Q.ofInt 16) (qadd (qmul q2 ⟨5, 10⟩) ⟨7, 10⟩)) then
          if lz < (WORLD_HEIGHT : Int) ∧ 0 ≤ ly ∧ ly < (chunkSize : Int) ∧
              0 ≤ lx ∧ lx < (chunkSize : Int) then
            (setIfAir m lx ly lz (some (mkNatural LEAVES)), s2)
          else (m, s2)
        else (m, s2)) acc2) acc) acc0

/-- Scan for leaf cells with a free cell below them: the candidate vine
anchors of a jungle tree (reads only, no PRNG draws). -/
def junglePotentials (m : GridMap) (x y startZ canopyCenterZ : Int) :
    List (Int × Int × Int) :=
  (List.range ((canopyCenterZ + 2 - startZ).toNat + 1)).foldl (fun acc i =>
    let lz := startZ + i
    (List.range 10).foldl (fun acc j =>
      let ly : Int := y - 3 - 1 + j
      (List.range 10).foldl (fun (acc : List (Int × Int × Int)) k =>
        let lx : Int := x - 3 - 1 + k
        if typeAt m lx ly lz = some LEAVES ∧ getB m lx ly (lz - 1) = none then
          acc ++ [(lx, ly, lz - 1)]
        else acc) acc) acc) []

/-- Hang vines from a random tenth of the anchors outside the trunk ring
(the for-loop over the anchor list, threading grid and PRNG state). -/
def jungleVines (x y : Int) (treeHeight : Nat) :
    List (Int × Int × Int) → GridMap × Nat → GridMap × Nat
  | [], acc => acc
  | pos :: rest, acc =>
    let m := acc.1
    let s := acc.2
    let s2 := (srNextQ s).1
    let q2 := (srNextQ s).2
    if qltb q2 ⟨10, 100⟩ then
      let tooClose := pos.1 ≥ x - 2 ∧ pos.1 ≤ x + 3 ∧ pos.2.1 ≥ y - 2 ∧ pos.2.1 ≤ y + 3
      if tooClose then jungleVines x y treeHeight rest (m, s2)
      else
        let s3 := (srNextQ s2).1
        let q3 := (srNextQ s2).2
        let vineLength := 2 + (qfloor (qmul q3 (qmul (Q.ofInt treeHeight) ⟨6, 10⟩))).toNat
        jungleVines x y treeHeight rest (placeVine m pos.1 pos.2.1 pos.2.2 vineLength, s3)
    else jungleVines x y treeHeight rest (m, s2)

def growJungleTree (m : GridMap) (x y startZ : Int) (chunkSize : Nat) (s : Nat)
    (minH maxH : Nat) : GridMap × Nat :=
  let s1 := (srNextQ s).1
  let q := (srNextQ s).2
  let treeHeight : Nat := minH + (qfloor (qmul q (Q.ofInt (maxH - minH + 1)))).toNat
  if x + 1 ≥ (chunkSize : Int) ∨ y + 1 ≥ (chunkSize : Int) ∨
      startZ + treeHeight + 5 ≥ (WORLD_HEIGHT : Int) then (m, s1)
  else
    let res := jungleCanopy x y (startZ + treeHeight) chunkSize
      (jungleTrunk m x y startZ treeHeight, s1)
    jungleVines x y treeHeight
      (junglePotentials res.1 x y startZ (startZ + treeHeight)) res

/-- The 3x3x3 canopy of a regular tree: the centre of the bottom layer is
the trunk, the top corners are skipped, the other corners drop with
chance 0.4 above the bottom layer (one PRNG draw per corner cell). -/
def regularCanopy (x y leaveStart : Int) (chunkSize : Nat) (acc0 : GridMap × Nat) :
    GridMap × Nat :=
  (List.range 3).foldl (fun (acc : GridMap × Nat) i =>
    let lz := leaveStart + i
    (List.range 3).foldl (fun (acc2 : GridMap × Nat) j =>
      let ly : Int := y - 1 + j
      (List.range 3).foldl (fun (acc3 : GridMap × Nat) k =>
        let (m, s) := acc3
        let lx : Int := x - 1 + k
        if lz = leaveStart ∧ lx = x ∧ ly = y then (m, s)
        else
          let corner := (lx - x).natAbs = 1 ∧ (ly - y).natAbs = 1
          let write := fun (m : GridMap) (s : Nat) =>
            if lz = leaveStart + 2 ∧ corner then (m, s)
            else if lz < (WORLD_HEIGHT : Int) ∧ 0 ≤ ly ∧ ly < (chunkSize : Int) ∧
                0 ≤ lx ∧ lx < (chunkSize : Int) then
              (setIfAir m lx ly lz (some (mkNatural LEAVES)), s)
            else (m, s)
          if corner then
            let s2 := (srNextQ s).1
            let q2 := (srNextQ s).2
            if qltb ⟨4, 10⟩ q2 ∧ lz ≠ leaveStart then (m, s2) else write m s2
          else write m s) acc2) acc) acc0

/-- Vine anchors of a regular tree: leaf cells in the 3x5x5 canopy
surroundings with a free cell below. -/
def regularPotentials (m : GridMap) (x y leaveStart : Int) : List (Int × Int × Int) :=
  (List.range 3).foldl (fun acc i =>
    let lz := leaveStart + i
    (List.range 5).foldl (fun acc j =>
      let ly : Int := y - 2 + j
      (List.range 5).foldl (fun (acc : List (Int × Int × Int)) k =>
        let lx : Int := x - 2 + k
        if typeAt m lx ly lz = some LEAVES ∧ getB m lx ly (lz - 1) = none then
          acc ++ [(lx, ly, lz - 1)]
        else acc) acc) acc) []

/-- Hang vines from a random quarter of the anchors of a regular tree. -/
def regularVines (treeHeight : Nat) :
    List (Int × Int × Int) → GridMap × Nat → GridMap × Nat
  | [], acc => acc
  | pos :: rest, acc =>
    let m := acc.1
    let s := acc.2
    let s2 := (srNextQ s).1
    let q2 := (srNextQ s).2
    if qltb q2 ⟨25, 100⟩ then
      let s3 := (srNextQ s2).1
      let q3 := (srNextQ s2).2
      let vineLength := 2 + (qfloor (qmul q3 (qmul (Q.ofInt treeHeight) ⟨7, 10⟩))).toNat
      regularVines treeHeight rest (placeVine m pos.1 pos.2.1 pos.2.2 vineLength, s3)
    else regularVines treeHeight rest (m, s2)

def growRegularTree (m : GridMap) (x y startZ : Int) (chunkSize : Nat) (s : Nat)
    (minH maxH : Nat) (hasVines : Bool) : GridMap × Nat :=
  let s1 := (srNextQ s).1
  let q := (srNextQ s).2
  let treeHeight : Nat := minH + (qfloor (qmul q (Q.ofInt (maxH - minH + 1)))).toNat
  if startZ + treeHeight + 2 ≥ (WORLD_HEIGHT : Int) then (m, s1)
  else
    let leaveStart := startZ + treeHeight - 1
    let res := regularCanopy x y leaveStart chunkSize
      (trunkColumn m x y startZ treeHeight LOG, s1)
    let m2 := if startZ + treeHeight < (WORLD_HEIGHT : Int) then
        setB res.1 x y (startZ + treeHeight) (some (mkNatural LEAVES))
      else res.1
    if hasVines then
      regularVines treeHeight (regularPotentials m2 x y leaveStart) (m2, res.2)
    else (m2, res.2)

def generateIceSpike (m : GridMap) (x y startZ : Int) (chunkSize : Nat) (s : Nat) :
    GridMap × Nat :=
  let s1 := (srNextQ s).1
  let q := (srNextQ s).2
  let spikeHeight : Nat := 12 + (qfloor (qmul q (Q.ofInt 15))).toNat
  if x + 3 ≥ (chunkSize : Int) ∨ y + 3 ≥ (chunkSize : Int) ∨ x - 1 < 0 ∨ y - 1 < 0 ∨
      startZ + spikeHeight + 4 ≥ (WORLD_HEIGHT : Int) then (m, s1)
  else
    let m := (List.range spikeHeight).foldl (fun m h =>
      let z := startZ + h
      (List.range 2).foldl (fun m dx =>
        (List.range 2).foldl (fun m dy =>
          setIfAir m (x + dx) (y + dy) z (some (mkNatural ICE))) m) m) m
    let tipZ := startZ + spikeHeight
    let m := (List.range 4).foldl (fun m j =>
      let dy : Int := -1 + j
      (List.range 4).foldl (fun m k =>
        let dx : Int := -1 + k
        if (dx = -1 ∨ dx = 2) ∧ (dy = -1 ∨ dy = 2) then m
        else setIfAir m (x + dx) (y + dy) tipZ (some (mkNatural ICE))) m) m
    (setIfAir m x y (tipZ + 1) (some (mkNatural ICE)), s1)

/-- `growTree` dispatch by biome. -/
def growTree (m : GridMap) (x y startZ : Int) (chunkSize : Nat) (s : Nat)
    (minH maxH : Nat) (hasVines : Bool) (biome : BiomeType) : GridMap × Nat :=
  match biome with
  | BiomeType.JUNGLE => growJungleTree m x y startZ chunkSize s minH maxH
  | BiomeType.SNOW => growSpruceTree m x y startZ chunkSize s minH maxH
  | _ => growRegularTree m x y startZ chunkSize s minH maxH hasVines

/-! ## Tree placement pass (`generateChunk` lines 702-819) -/

/-- `Math.floor(Math.pow(q, 0.5) * 5)` for `0 ≤ q < 36/25`: the largest
`k ≤ 5` with `k^2 ≤ 25q`, by explicit case split (exact square-root floor). -/
def floorSqrt5 (q : Q) : Nat :=
  let t := qmul (Q.ofInt 25) q
  if qleb (Q.ofInt 25) t then 5
  else if qleb (Q.ofInt 16) t then 4
  else if qleb (Q.ofInt 9) t then 3
  else if qleb (Q.ofInt 4) t then 2
  else if qleb (Q.ofInt 1) t then 1
  else 0

/-- The orb "safe zone" test of each placement loop: inside the radius-6
disc around the chunk centre, or in the quadrant in front of the orb. -/
def inOrbSafeZone (size : Nat) (x y : Int) : Bool :=
  let centerX : Q := ⟨size, 2⟩
  let dx := qsub (Q.ofInt x) centerX
  let dy := qsub (Q.ofInt y) centerX
  qltb (qadd (qmul dx dx) (qmul dy dy)) (Q.ofInt 36) ||
    (qltb centerX (Q.ofInt x) && qltb centerX (Q.ofInt y))

/-- The 2x2 jungle ground check: all four ground blocks are grass and all
four cells above them are free. -/
def jungleCanPlace (m : GridMap) (x y surfaceZ : Int) : Bool :=
  ([0, 1] : List Int).all fun dy =>
    ([0, 1] : List Int).all fun dx =>
      decide (typeAt m (x + dx) (y + dy) surfaceZ = some GRASS) &&
      decide (getB m (x + dx) (y + dy) (surfaceZ + 1) = none)

/-- The bounded `while (treesPlaced < numTrees && attempts < maxAttempts)`
retry loop of jungle tree placement, recursing on the remaining attempts. -/
def jungleTreeLoop (size : Nat) (isCenter : Bool) (minH maxH numTrees : Nat) :
    Nat → Nat → GridMap → Nat → GridMap × Nat
  | _, 0, m, s => (m, s)
  | treesPlaced, attemptsLeft + 1, m, s =>
    if numTrees ≤ treesPlaced then (m, s)
    else
      let s1 := (srNextQ s).1
      let qx := (srNextQ s).2
      let x : Int := 3 + (qfloor (qmul qx (Q.ofInt ((size : Int) - 8)))).toNat
      let s2 := (srNextQ s1).1
      let qy := (srNextQ s1).2
      let y : Int := 3 + (qfloor (qmul qy (Q.ofInt ((size : Int) - 8)))).toNat
      if isCenter && inOrbSafeZone size x y then
        jungleTreeLoop size isCenter minH maxH numTrees treesPlaced attemptsLeft m s2
      else
        let surfaceZ := topmostSolid m x y
        if surfaceZ ≤ 0 then
          jungleTreeLoop size isCenter minH maxH numTrees treesPlaced attemptsLeft m s2
        else if jungleCanPlace m x y surfaceZ then
          let res := growJungleTree m x y (surfaceZ + 1) size s2 minH maxH
          jungleTreeLoop size isCenter minH maxH numTrees (treesPlaced + 1) attemptsLeft res.1 res.2
        else
          jungleTreeLoop size isCenter minH maxH numTrees treesPlaced attemptsLeft m s2

/-- One attempt of the snow ice-spike pass: two coordinate draws, the orb
safe-zone rejection, and the surface checks before `generateIceSpike`. -/
def snowSpikeStep (size : Nat) (isCenter : Bool) (acc : GridMap × Nat) : GridMap × Nat :=
  let m := acc.1
  let s := acc.2
  let sa := (srNextQ s).1
  let qx := (srNextQ s).2
  let x : Int := 3 + (qfloor (qmul qx (Q.ofInt ((size : Int) - 6)))).toNat
  let sb := (srNextQ sa).1
  let qy := (srNextQ sa).2
  let y : Int := 3 + (qfloor (qmul qy (Q.ofInt ((size : Int) - 6)))).toNat
  if isCenter && inOrbSafeZone size x y then (m, sb)
  else
    let surfaceZ := topmostSolid m x y
    if 0 < surfaceZ ∧ typeAt m x y surfaceZ ≠ some ICE ∧ getB m x y surfaceZ ≠ none then
      generateIceSpike m x y (surfaceZ + 1) size sb
    else (m, sb)

/-- One cell of the snow spruce-placement scan (accepts grass or dirt). -/
def snowTreeStep (bp : BiomeParams) (size : Nat) (isCenter : Bool)
    (acc : GridMap × Nat) (x y : Int) : GridMap × Nat :=
  let m := acc.1
  let s := acc.2
  if isCenter && inOrbSafeZone size x y then (m, s)
  else
    let s1 := (srNextQ s).1
    let q := (srNextQ s).2
    if qltb q bp.treeChance then
      let surfaceZ := topmostSolid m x y
      if 0 < surfaceZ ∧ (typeAt m x y surfaceZ = some GRASS ∨
          typeAt m x y surfaceZ = some DIRT) then
        growTree m x y (surfaceZ + 1) size s1 bp.minTreeHeight bp.maxTreeHeight
          bp.hasVines BiomeType.SNOW
      else (m, s1)
    else (m, s1)

/-- One cell of the regular tree-placement scan (grass only). -/
def defaultTreeStep (bp : BiomeParams) (biome : BiomeType) (size : Nat) (isCenter : Bool)
    (acc : GridMap × Nat) (x y : Int) : GridMap × Nat :=
  let m := acc.1
  let s := acc.2
  if isCenter && inOrbSafeZone size x y then (m, s)
  else
    let s1 := (srNextQ s).1
    let q := (srNextQ s).2
    if qltb q bp.treeChance then
      let surfaceZ := topmostSolid m x y
      if 0 < surfaceZ ∧ typeAt m x y surfaceZ = some GRASS then
        growTree m x y (surfaceZ + 1) size s1 bp.minTreeHeight bp.maxTreeHeight
          bp.hasVines biome
      else (m, s1)
    else (m, s1)

/-- The ice-spike batch of a snow chunk: one draw for the spike count
(from the already-advanced state), then that many spike attempts. -/
def snowSpikesRun (size : Nat) (isCenter : Bool) (m : GridMap) (s1 : Nat) :
    GridMap × Nat :=
  (List.range (4 + (qfloor (qmul (srNextQ s1).2 (Q.ofInt 6))).toNat)).foldl
    (fun acc _ => snowSpikeStep size isCenter acc) (m, (srNextQ s1).1)

/-- The spruce grid scan of a snow chunk. -/
def snowTreeScan (bp : BiomeParams) (size : Nat) (isCenter : Bool) (m : GridMap)
    (s1 : Nat) : GridMap × Nat :=
  (List.range (size - 5)).foldl (fun acc j =>
    (List.range (size - 5)).foldl (fun acc2 k =>
      snowTreeStep bp size isCenter acc2 (2 + k) (2 + j)) acc) (m, s1)

/-- The snow-biome structure pass: either a batch of ice spikes (60% of
chunks, decided by one draw) or the spruce scan, both continuing from the
advanced PRNG state. -/
def snowPass (bp : BiomeParams) (isCenter : Bool) (size : Nat) (m : GridMap) (s : Nat) :
    GridMap × Nat :=
  if qltb (srNextQ s).2 ⟨6, 10⟩ then snowSpikesRun size isCenter m (srNextQ s).1
  else snowTreeScan bp size isCenter m (srNextQ s).1

/-- The jungle-biome structure pass: a drawn number of trees placed by the
bounded retry loop. -/
def junglePass (bp : BiomeParams) (isCenter : Bool) (size : Nat) (m : GridMap) (s : Nat) :
    GridMap × Nat :=
  let s1 := (srNextQ s).1
  let q := (srNextQ s).2
  let numTrees := 8 + floorSqrt5 q
  jungleTreeLoop size isCenter bp.minTreeHeight bp.maxTreeHeight numTrees
    0 (numTrees * 15) m s1

/-- The default structure pass: the grass-only grid scan. -/
def defaultPass (bp : BiomeParams) (biome : BiomeType) (isCenter : Bool) (size : Nat)
    (m : GridMap) (s : Nat) : GridMap × Nat :=
  (List.range (size - 5)).foldl (fun acc j =>
    (List.range (size - 5)).foldl (fun acc2 k =>
      defaultTreeStep bp biome size isCenter acc2 (2 + k) (2 + j)) acc) (m, s)

/-- The whole structure-placement pass (trees, spruces, ice spikes),
dispatching on the biome; the orb-centre flag is `chunkX = 0 ∧ chunkY = 0`. -/
def treePass (bp : BiomeParams) : BiomeType → Int → Int → Nat → GridMap → Nat →
    GridMap × Nat
  | BiomeType.SNOW, chunkX, chunkY, size, m, s =>
    if !bp.placeTrees then (m, s)
    else snowPass bp (decide (chunkX = 0 ∧ chunkY = 0)) size m s
  | BiomeType.JUNGLE, chunkX, chunkY, size, m, s =>
    if !bp.placeTrees then (m, s)
    else junglePass bp (decide (chunkX = 0 ∧ chunkY = 0)) size m s
  | biome, chunkX, chunkY, size, m, s =>
    if !bp.placeTrees then (m, s)
    else defaultPass bp biome (decide (chunkX = 0 ∧ chunkY = 0)) size m s

/-! ## The modification overlay and its application
(`generateChunk` lines 821-833, `getVoxelKey`, `getChunkKey`) -/

def getChunkKey (x y : Int) : String := toString x ++ "," ++ toString y

def getVoxelKey (x y z : Int) : String :=
  toString x ++ "," ++ toString y ++ "," ++ toString z

/-- `Number(s)` restricted to the decimal-integer strings the engine itself
writes as key components; `Number("") = 0`; any other shape is treated as
the NaN case (which every bounds comparison rejects).  Exotic inputs that
JS would read as a finite non-integer (only possible for hand-edited
storage) are also rejected, which coincides with JS observably because a
fractional index writes a non-index property. -/
def parseNum (s : String) : Option Int :=
  let digitVal : List Char → Option Nat := fun cs =>
    cs.foldl (fun acc c =>
      match acc with
      | none => none
      | some n => if c.isDigit then some (n * 10 + (c.toNat - 48)) else none) (some 0)
  match s.data with
  | [] => some 0
  | c :: cs =>
    if c = Char.ofNat 45 then
      match cs with
      | [] => none
      | _ => (digitVal cs).map (fun n => -(n : Int))
    else (digitVal (c :: cs)).map (fun n => (n : Int))

/-- One chunk's modification record: local voxel key to block-or-cleared. -/
abbrev ModRecord := List (String × Option Block)

/-- The whole overlay: chunk key to modification record. -/
abbrev Overlay := List (String × ModRecord)

/-- Apply every entry of a chunk's modification record onto a generated
grid: `const [lx, ly, lz] = key.split(',').map(Number)`, bounds-checked,
then written (a cleared entry removes the voxel). -/
def applyMods (m : GridMap) (mods : ModRecord) (size : Nat) : GridMap :=
  mods.foldl (fun m kv =>
    match (kv.1.splitOn ",").map parseNum with
    | some lx :: some ly :: some lz :: _ =>
      if 0 ≤ lz ∧ lz < (WORLD_HEIGHT : Int) ∧ 0 ≤ ly ∧ ly < (size : Int) ∧
          0 ≤ lx ∧ lx < (size : Int) then
        setB m lx ly lz kv.2
      else m
    | _ => m) m

/-! ## Lighting engine (`IsoEngine.calculateLighting` lines 342-454) -/

def emptyLightGrid (size : Nat) : LightGrid :=
  (List.range WORLD_HEIGHT).map fun _ =>
    (List.range size).map fun _ => List.replicate size 0

/-- `IsoEngine.getLight` (lines 353-358): any coordinate outside
`[0,size)x[0,size)x[0,WORLD_HEIGHT)` reads 0; otherwise
`lightMap[z]?.[y]?.[x] ?? 0`. -/
def getLight (lm : LightGrid) (x y z : Int) (size : Nat) : Nat :=
  if x < 0 ∨ (size : Int) ≤ x ∨ y < 0 ∨ (size : Int) ≤ y ∨
      z < 0 ∨ (WORLD_HEIGHT : Int) ≤ z then 0
  else getL lm x y z

/-- `IsoEngine.setLight` (lines 360-365): a write outside the same bounds
returns with the grid unchanged. -/
def setLight (lm : LightGrid) (x y z : Int) (v : Nat) (size : Nat) : LightGrid :=
  if x < 0 ∨ (size : Int) ≤ x ∨ y < 0 ∨ (size : Int) ≤ y ∨
      z < 0 ∨ (WORLD_HEIGHT : Int) ≤ z then lm
  else setL lm x y z v

/-- The sky pass for one column: scan top-down carrying the ambient level;
air costs nothing, a block subtracts its dampening; stop at `level ≤ 0`. -/
def skyColumn (m : GridMap) (size : Nat) (x y : Nat) (ambient : Int) (lm : LightGrid) :
    LightGrid :=
  ((List.range WORLD_HEIGHT).foldl (fun (acc : LightGrid × Int × Bool) dz =>
    let (lm, level, stopped) := acc
    if stopped then acc
    else
      let z : Int := (WORLD_HEIGHT : Int) - 1 - dz
      if level ≤ 0 then (lm, level, true)
      else
        let lm := setLight lm x y z level.toNat size
        match getB m x y z with
        | some b => (lm, level - ((BLOCK_DEFINITIONS b.type).lightDampening : Int), false)
        | none => (lm, level, false)) (lm, ambient, false)).1

def skyPass (m : GridMap) (size : Nat) (ambient : Int) (lm : LightGrid) : LightGrid :=
  (List.range size).foldl (fun lm x =>
    (List.range size).foldl (fun lm y => skyColumn m size x y ambient lm) lm) lm

/-- Step 1.5: the orb light source, injected when the engine's current
chunk coordinate is the origin. -/
def orbInject (size : Nat) (isOrbChunk : Bool) (lm : LightGrid) : LightGrid :=
  if isOrbChunk then setLight lm ((size / 2 : Nat) : Int) ((size / 2 : Nat) : Int) 40 15 size
  else lm

/-- The scan order of the gathering loops of step 2: `z` outer, then `y`,
then `x`, exactly the triple `for` of the source. -/
def scanPositions (size : Nat) : List (Int × Int × Int) :=
  (List.range WORLD_HEIGHT).flatMap fun z =>
    (List.range size).flatMap fun y =>
      (List.range size).map fun x => ((x : Int), (y : Int), (z : Int))

/-- The light emission of the material at a cell (0 for empty cells). -/
def emissionAt (m : GridMap) (x y z : Int) : Nat :=
  match getB m x y z with
  | some b => (BLOCK_DEFINITIONS b.type).lightEmission
  | none => 0

/-- The loop body of step 2 at one position. -/
def gatherBody (m : GridMap) (size : Nat) (acc : LightGrid × List (Int × Int × Int))
    (p : Int × Int × Int) : LightGrid × List (Int × Int × Int) :=
  let (lm, queue) := acc
  let lightLevel := getLight lm p.1 p.2.1 p.2.2 size
  let emission := emissionAt m p.1 p.2.1 p.2.2
  if 0 < lightLevel ∨ 0 < emission then
    let lm := if lightLevel < emission then setLight lm p.1 p.2.1 p.2.2 emission size else lm
    (lm, queue ++ [p])
  else acc

/-- Step 2: seed the BFS queue with every voxel holding positive light (or
positive emission, raising the stored value to the emission first). -/
def gatherSources (m : GridMap) (size : Nat) (lm : LightGrid) :
    LightGrid × List (Int × Int × Int) :=
  (scanPositions size).foldl (gatherBody m size) (lm, [])

def lightDirs : List (Int × Int × Int) :=
  [(1, 0, 0), (-1, 0, 0), (0, 1, 0), (0, -1, 0), (0, 0, 1), (0, 0, -1)]

/-- Dampening used by the BFS when writing INTO a cell: the cell's material
or air. -/
def dampAt (m : GridMap) (x y z : Int) : Nat :=
  match getB m x y z with
  | some b => (BLOCK_DEFINITIONS b.type).lightDampening
  | none => (BLOCK_DEFINITIONS AIR).lightDampening

/-- The relaxation of one neighbour direction from a dequeued voxel
carrying light `current`. -/
def bfsBody (m : GridMap) (size : Nat) (current : Nat) (pos : Int × Int × Int)
    (acc : LightGrid × List (Int × Int × Int)) (d : Int × Int × Int) :
    LightGrid × List (Int × Int × Int) :=
  let (lm, out) := acc
  let nx := pos.1 + d.1
  let ny := pos.2.1 + d.2.1
  let nz := pos.2.2 + d.2.2
  if nx < 0 ∨ (size : Int) ≤ nx ∨ ny < 0 ∨ (size : Int) ≤ ny ∨
      nz < 0 ∨ (WORLD_HEIGHT : Int) ≤ nz then acc
  else
    let dampening := dampAt m nx ny nz
    let lightInNeighbor := getLight lm nx ny nz size
    let newLightLevel : Int := (current : Int) - dampening
    if (lightInNeighbor : Int) < newLightLevel then
      (setLight lm nx ny nz newLightLevel.toNat size, out ++ [(nx, ny, nz)])
    else acc

/-- Process one dequeued voxel: relax all 6 neighbours, returning the
updated grid and the newly enqueued positions (in direction order). -/
def bfsStep (m : GridMap) (size : Nat) (lm : LightGrid) (pos : Int × Int × Int) :
    LightGrid × List (Int × Int × Int) :=
  lightDirs.foldl (bfsBody m size (getLight lm pos.1 pos.2.1 pos.2.2 size) pos) (lm, [])

/-- The BFS `while (head < lightQueue.length)` loop, on explicit fuel; the
boolean records whether the queue was exhausted. -/
def bfsLight (m : GridMap) (size : Nat) : Nat → LightGrid → List (Int × Int × Int) →
    LightGrid × Bool
  | 0, lm, queue => (lm, queue.isEmpty)
  | _ + 1, lm, [] => (lm, true)
  | fuel + 1, lm, pos :: rest =>
    bfsLight m size fuel (bfsStep m size lm pos).1 (rest ++ (bfsStep m size lm pos).2)

/-- `calculateLighting`: sky pass, orb injection, source gathering, BFS. -/
def calculateLighting (m : GridMap) (size : Nat) (ambient : Int) (isOrbChunk : Bool)
    (fuel : Nat) (lm : LightGrid) : LightGrid × Bool :=
  bfsLight m size fuel
    (gatherSources m size (orbInject size isOrbChunk (skyPass m size ambient lm))).1
    (gatherSources m size (orbInject size isOrbChunk (skyPass m size ambient lm))).2

/-- Membership of a coordinate in `[0,size)x[0,size)x[0,WORLD_HEIGHT)`,
the bounds every light access checks. -/
def inBoundsL (size : Nat) (p : Int × Int × Int) : Prop :=
  0 ≤ p.1 ∧ p.1 < (size : Int) ∧ 0 ≤ p.2.1 ∧ p.2.1 < (size : Int) ∧
    0 ≤ p.2.2 ∧ p.2.2 < (WORLD_HEIGHT : Int)

/-- Coordinate shift by a direction vector. -/
def addP (n d : Int × Int × Int) : Int × Int × Int :=
  (n.1 + d.1, n.2.1 + d.2.1, n.2.2 + d.2.2)

/-- The propagation inequality from voxel `n` into voxel `v`: the light
stored at `v` is at least the light at `n` minus `v`'s dampening. -/
def edgeOK (m : GridMap) (size : Nat) (lm : LightGrid) (n v : Int × Int × Int) : Prop :=
  (getLight lm n.1 n.2.1 n.2.2 size : Int) - (dampAt m v.1 v.2.1 v.2.2 : Int) ≤
    (getLight lm v.1 v.2.1 v.2.2 size : Int)

/-- The BFS loop invariant: every edge not yet satisfying the propagation
inequality has its source still in the queue. -/
def pendingOK (m : GridMap) (size : Nat) (lm : LightGrid)
    (queue : List (Int × Int × Int)) : Prop :=
  ∀ n d, d ∈ lightDirs → inBoundsL size (addP n d) →
    edgeOK m size lm n (addP n d) ∨ n ∈ queue

/-! ## Chunk assembly (`generateChunk` lines 483-866) -/

structure Chunk where
  map : GridMap
  lightMap : LightGrid
  size : Nat
  biome : BiomeType
  averageSurfaceHeight : Q
  coordX : Int
  coordY : Int
  isDirty : Bool
  lastCameraHash : String
  drawOffsetX : Q
  drawOffsetY : Q
  deriving DecidableEq

/-- The per-chunk PRNG seed string `` `${worldSeed}_${chunkX},${chunkY}` ``. -/
def chunkSeedStr (worldSeed : String) (cx cy : Int) : String :=
  worldSeed ++ "_" ++ toString cx ++ "," ++ toString cy

def baseHeightOf (biome : BiomeType) : Nat :=
  (qfloor (qmul (Q.ofInt WORLD_HEIGHT) (biomeParams biome).baseHeightModifier)).toNat

/-- Steps 1-7 of `generateChunk` (sizing, column fill with caves and
blending, orb crater, lakes, structures): a pure function of the world
seed, the chunk coordinate and the biome argument.  Returns the
pre-overlay grid, the drawn chunk size and the final PRNG state. -/
def generatedPre (worldSeed : String) (cx cy : Int) (biome : BiomeType) :
    GridMap × Nat × Nat :=
  let s0 := seedHash (chunkSeedStr worldSeed cx cy)
  let s1 := (srNextQ s0).1
  let q := (srNextQ s0).2
  let size := MIN_CHUNK_SIZE +
    (qfloor (qmul q (Q.ofInt (MAX_CHUNK_SIZE - MIN_CHUNK_SIZE + 1)))).toNat
  let nB := getBiomeAt worldSeed cx (cy - 1)
  let sB := getBiomeAt worldSeed cx (cy + 1)
  let wB := getBiomeAt worldSeed (cx - 1) cy
  let eB := getBiomeAt worldSeed (cx + 1) cy
  let bp := biomeParams biome
  let p := buildP worldSeed
  let baseHeight := baseHeightOf biome
  let m := buildBaseMap p bp biome baseHeight cx cy size nB sB wB eB
  let m := if cx = 0 ∧ cy = 0 then orbExcavate m size else m
  let m := if biome = BiomeType.SNOW then lakePass m size baseHeight else m
  ((treePass bp biome cx cy size m s1).1, size, (treePass bp biome cx cy size m s1).2)

/-- The mean topmost-solid height over all columns (lines 839-852). -/
def averageSurfaceCalc (m : GridMap) (size baseHeight : Nat) : Q :=
  let acc := (List.range size).foldl (fun acc y =>
    (List.range size).foldl (fun (acc : Int × Nat) x =>
      let z := topmostSolid m x y
      if z ≠ -1 then (acc.1 + z, acc.2 + 1) else acc) acc) ((0 : Int), (0 : Nat))
  if 0 < acc.2 then ⟨acc.1, acc.2⟩ else Q.ofInt baseHeight

/-- All of `generateChunk`: steps 1-7, then the overlay application (step
8, the only state-dependent step besides the lighting inputs), then the
lighting computation and the surface average. -/
def generateChunkWith (worldSeed : String) (overlay : Overlay) (isOrbChunk : Bool)
    (ambient : Int) (fuel : Nat) (cx cy : Int) (biome : BiomeType) : Chunk :=
  let pre := generatedPre worldSeed cx cy biome
  let m0 := pre.1
  let size := pre.2.1
  let m := match lookupA overlay (getChunkKey cx cy) with
    | some mods => applyMods m0 mods size
    | none => m0
  let lm := (calculateLighting m size ambient isOrbChunk fuel (emptyLightGrid size)).1
  let avg := averageSurfaceCalc m size (baseHeightOf biome)
  { map := m, lightMap := lm, size := size, biome := biome,
    averageSurfaceHeight := avg, coordX := cx, coordY := cy, isDirty := true,
    lastCameraHash := "", drawOffsetX := Q.ofInt 0, drawOffsetY := Q.ofInt 0 }

/-! ## Engine state and mutation entry points
(`IsoEngine` fields, `modifyBlock`, `markNeighborChunksDirty`, `placeBlock`,
`handleInput`, `loadChunk`) -/

inductive GameEvent where
  | inventoryUpdate (t : BlockType)
  | blockPlaced (t : BlockType)
  deriving DecidableEq, Repr

structure EngineState where
  worldSeed : String
  chunks : List (String × Chunk)
  chunkModifications : Overlay
  currentChunkCoords : Int × Int
  mode : GameMode
  hoveredBlock : Option (Int × Int × Int)
  hoveredFace : Option (Int × Int × Int)
  selectedBlockType : Option BlockType
  ambientLightLevel : Int
  isMining : Bool
  miningTarget : Option (Int × Int × Int)
  isInputDown : Bool
  deriving DecidableEq

/-- `IsoEngine.generateChunk` as the method of the engine: everything it
reads from `this` made explicit — the world seed (steps 1-7 and the
biome noises), the modification overlay (step 8), and the current chunk
coordinate and ambient level (lighting only). -/
def IsoEngine.generateChunk (st : EngineState) (fuel : Nat) (cx cy : Int)
    (biome : BiomeType) : Chunk :=
  generateChunkWith st.worldSeed st.chunkModifications
    (decide (st.currentChunkCoords = (0, 0))) st.ambientLightLevel fuel cx cy biome

/-- `loadChunk`: get-or-generate through the chunk cache. -/
def loadChunk (st : EngineState) (fuel : Nat) (x y : Int) : EngineState × Chunk :=
  let key := getChunkKey x y
  match lookupA st.chunks key with
  | some c => (st, c)
  | none =>
    let biome := getBiomeAt st.worldSeed x y
    let c := IsoEngine.generateChunk st fuel x y biome
    ({ st with chunks := setA st.chunks key c }, c)

/-- The four orthogonal neighbour keys of `markNeighborChunksDirty`. -/
def neighborKeys (cx cy : Int) : List String :=
  [getChunkKey (cx + 1) cy, getChunkKey (cx - 1) cy,
   getChunkKey cx (cy + 1), getChunkKey cx (cy - 1)]

/-- Mark one chunk dirty if it is loaded. -/
def markDirtyOne (chunks : List (String × Chunk)) (key : String) : List (String × Chunk) :=
  match lookupA chunks key with
  | some c => setA chunks key { c with isDirty := true }
  | none => chunks

def markNeighborChunksDirty (chunks : List (String × Chunk)) (cx cy : Int) :
    List (String × Chunk) :=
  (neighborKeys cx cy).foldl markDirtyOne chunks

/-- The overlay update of `modifyBlock` step 1: save the delta. -/
def modifyBlockOverlay (st : EngineState) (chunkX chunkY x y z : Int)
    (block : Option Block) : Overlay :=
  setA st.chunkModifications (getChunkKey chunkX chunkY)
    (setA ((lookupA st.chunkModifications (getChunkKey chunkX chunkY)).getD [])
      (getVoxelKey x y z) block)

/-- Steps 2-4 of `modifyBlock` on the loaded chunk: patch the grid,
recompute the lighting (the recalculation zeroes the light grid and reruns
`calculateLighting`), mark dirty. -/
def patchedChunk (st : EngineState) (fuel : Nat) (c : Chunk) (x y z : Int)
    (block : Option Block) : Chunk :=
  { c with
      map := setB c.map x y z block,
      lightMap := (calculateLighting (setB c.map x y z block) c.size
        st.ambientLightLevel (decide (st.currentChunkCoords = (0, 0))) fuel
        (emptyLightGrid c.size)).1,
      isDirty := true }

/-- `modifyBlock` (lines 277-301): record the delta in the overlay, then —
if the chunk is loaded — patch its grid, recompute its lighting, mark it
dirty and mark its four orthogonal neighbours dirty. -/
def modifyBlock (st : EngineState) (fuel : Nat) (chunkX chunkY x y z : Int)
    (block : Option Block) : EngineState :=
  match lookupA st.chunks (getChunkKey chunkX chunkY) with
  | none => { st with chunkModifications := modifyBlockOverlay st chunkX chunkY x y z block }
  | some c =>
    { st with
        chunkModifications := modifyBlockOverlay st chunkX chunkY x y z block,
        chunks := markNeighborChunksDirty
          (setA st.chunks (getChunkKey chunkX chunkY) (patchedChunk st fuel c x y z block))
          chunkX chunkY }

/-- `placeBlock` (lines 316-338): requires edit mode, a hovered block and
face and a selected type; the target is the hovered block shifted by the
face normal; rejects silently when out of bounds or occupied; otherwise
commits through `modifyBlock` and fires `onBlockPlaced`. -/
def placeBlock (st : EngineState) (fuel : Nat) : EngineState × List GameEvent :=
  match st.mode, st.hoveredBlock, st.hoveredFace, st.selectedBlockType with
  | GameMode.EDIT, some hb, some hf, some t =>
    let nx := hb.1 + hf.1
    let ny := hb.2.1 + hf.2.1
    let nz := hb.2.2 + hf.2.2
    match lookupA st.chunks (getChunkKey st.currentChunkCoords.1 st.currentChunkCoords.2) with
    | none => (st, [])
    | some c =>
      if nx < 0 ∨ ny < 0 ∨ nz < 0 ∨ (c.size : Int) ≤ nx ∨ (c.size : Int) ≤ ny ∨
          (WORLD_HEIGHT : Int) ≤ nz then (st, [])
      else if getB c.map nx ny nz ≠ none then (st, [])
      else
        (modifyBlock st fuel st.currentChunkCoords.1 st.currentChunkCoords.2 nx ny nz
          (some { type := t, hp := (BLOCK_DEFINITIONS t).hp }),
         [GameEvent.blockPlaced t])
  | _, _, _, _ => (st, [])

/-- `handleInput` (lines 1172-1190); the pointer hit test that refreshes
`hoveredBlock` is the cursor-resolution collaborator, taken here as the
already-stored hover state. -/
def handleInput (st : EngineState) (isDown : Bool) : EngineState :=
  let st := { st with isInputDown := isDown }
  if st.mode = GameMode.EDIT then
    if isDown then
      match st.hoveredBlock with
      | some hb => { st with isMining := true, miningTarget := some hb }
      | none => st
    else { st with isMining := false, miningTarget := none }
  else st

/-! ## Mining ticks (spec-modelled) -/

/-- Modelled from the spec: the per-tick mining update of the
Idle → Mining → Destroyed state machine (spec 4.6).  The decrement step
itself is missing from `src/` — `handleInput` only arms `isMining` and
`miningTarget`, `MINE_SPEED` is imported but the tick that applies it and
fires `onInventoryUpdate` is not present — so this follows the spec's
words: while input is held in edit mode over a valid target, each
simulation tick decrements the target's durability by the fixed rate
`MINE_SPEED`; at durability ≤ 0 the voxel is removed via the modification
store (`modifyBlock`), exactly one inventory-update event fires carrying
the voxel's type, and the machine returns to Idle; an invalid target also
returns to Idle.

`minedChunks` is the chunk store after one non-final decrement: the target
voxel's durability reduced by `MINE_SPEED` in the in-memory chunk copy. -/
def minedChunks (st : EngineState) (c : Chunk) (tgt : Int × Int × Int) (b : Block) :
    List (String × Chunk) :=
  setA st.chunks (getChunkKey st.currentChunkCoords.1 st.currentChunkCoords.2)
    { c with
        map := setB c.map tgt.1 tgt.2.1 tgt.2.2 (some { b with hp := b.hp - MINE_SPEED }) }

/-- The spec-modelled mining tick; see `minedChunks` above. -/
def miningTick (st : EngineState) (fuel : Nat) : EngineState × List GameEvent :=
  if st.mode = GameMode.EDIT ∧ st.isMining ∧ st.isInputDown then
    match st.miningTarget with
    | none => (st, [])
    | some tgt =>
      match lookupA st.chunks
          (getChunkKey st.currentChunkCoords.1 st.currentChunkCoords.2) with
      | none => (st, [])
      | some c =>
        match getB c.map tgt.1 tgt.2.1 tgt.2.2 with
        | none => ({ st with isMining := false, miningTarget := none }, [])
        | some b =>
          if b.hp - MINE_SPEED ≤ 0 then
            ({ modifyBlock st fuel st.currentChunkCoords.1 st.currentChunkCoords.2
                tgt.1 tgt.2.1 tgt.2.2 none with
                isMining := false, miningTarget := none },
             [GameEvent.inventoryUpdate b.type])
          else
            ({ st with chunks := minedChunks st c tgt b }, [])
  else (st, [])

/-- Run `n` mining ticks, collecting the fired events in order. -/
def miningRun (st : EngineState) (fuel : Nat) : Nat → EngineState × List GameEvent
  | 0 => (st, [])
  | n + 1 =>
    ((miningRun (miningTick st fuel).1 fuel n).1,
     (miningTick st fuel).2 ++ (miningRun (miningTick st fuel).1 fuel n).2)

/-! ## Overlay persistence (`saveToStorage` lines 201-219,
`loadFromStorage` lines 221-239)

The JSON text itself is produced by `JSON.stringify` and re-read by
`JSON.parse`, which are inverse on the tree of arrays / objects / strings
/ numbers / null involved; the model works on that tree. -/

inductive Json where
  | null
  | jbool (b : Bool)
  | num (n : Int)
  | str (s : String)
  | arr (items : List Json)
  | obj (fields : List (String × Json))

/-- The numeric value of the `BlockType` enum, in declaration order. -/
def blockTypeId : BlockType → Nat
  | AIR => 0 | GRASS => 1 | DIRT => 2 | STONE => 3 | BEDROCK => 4
  | LOG => 5 | LEAVES => 6 | SAND => 7 | VINE => 8 | ICE => 9
  | SPRUCE_LOG => 10 | SPRUCE_LEAVES => 11 | WOODEN_PLANKS => 12

def blockTypeOfId : Nat → Option BlockType
  | 0 => some AIR | 1 => some GRASS | 2 => some DIRT | 3 => some STONE
  | 4 => some BEDROCK | 5 => some LOG | 6 => some LEAVES | 7 => some SAND
  | 8 => some VINE | 9 => some ICE | 10 => some SPRUCE_LOG
  | 11 => some SPRUCE_LEAVES | 12 => some WOODEN_PLANKS | _ => none

/-- `JSON.stringify` of a `BlockInstance` object: optional fields that are
`undefined` are omitted entirely. -/
def encodeBlock (b : Block) : Json :=
  Json.obj ([("type", Json.num (blockTypeId b.type)), ("hp", Json.num b.hp)] ++
    (match b.isNatural with | some v => [("isNatural", Json.jbool v)] | none => []) ++
    (match b.variant with | some s => [("variant", Json.str s)] | none => []))

def decodeBlock : Json → Option Block
  | Json.obj (("type", Json.num ty) :: ("hp", Json.num hp) :: rest) =>
    match blockTypeOfId ty.toNat with
    | none => none
    | some t =>
      match rest with
      | [] => some ⟨t, hp, none, none⟩
      | [("isNatural", Json.jbool v)] => some ⟨t, hp, some v, none⟩
      | [("variant", Json.str s)] => some ⟨t, hp, none, some s⟩
      | [("isNatural", Json.jbool v), ("variant", Json.str s)] => some ⟨t, hp, some v, some s⟩
      | _ => none
  | _ => none

def encodeEntry (e : String × Option Block) : Json :=
  Json.arr [Json.str e.1, match e.2 with | some b => encodeBlock b | none => Json.null]

def decodeEntry : Json → Option (String × Option Block)
  | Json.arr [Json.str k, Json.null] => some (k, none)
  | Json.arr [Json.str k, j] => (decodeBlock j).map (fun b => (k, some b))
  | _ => none

/-- `saveToStorage`'s serialised structure
`[[chunkKey, [[voxelKey, blockData], ...]], ...]`. -/
def serializeOverlay (o : Overlay) : Json :=
  Json.arr (o.map fun ckv =>
    Json.arr [Json.str ckv.1, Json.arr (ckv.2.map encodeEntry)])

def decodeList {α : Type} (f : Json → Option α) : List Json → Option (List α)
  | [] => some []
  | j :: rest =>
    match f j, decodeList f rest with
    | some a, some l => some (a :: l)
    | _, _ => none

/-- `loadFromStorage`'s reconstruction
`new Map(parsed.map(([chunkKey, modArray]) => [chunkKey, new Map(modArray)]))`;
a shape mismatch is the caught-exception case (fresh overlay). -/
def deserializeOverlay : Json → Option Overlay
  | Json.arr items =>
    decodeList (fun j =>
      match j with
      | Json.arr [Json.str ck, Json.arr entries] =>
        (decodeList decodeEntry entries).map (fun l => (ck, l))
      | _ => none) items
  | _ => none

/-! ## Concrete fixtures for witnesses and counterexamples -/

/-- A 1x1-column grid: bedrock at z = 0, stone at z = 1, empty above. -/
def sampleMap : GridMap := [[[some (mkBlock BEDROCK)]], [[some (mkBlock STONE)]]]

def sampleChunk : Chunk :=
  { map := sampleMap, lightMap := emptyLightGrid 1, size := 1,
    biome := BiomeType.GRASSLAND, averageSurfaceHeight := ⟨1, 1⟩, coordX := 0, coordY := 0,
    isDirty := false, lastCameraHash := "", drawOffsetX := ⟨0, 1⟩, drawOffsetY := ⟨0, 1⟩ }

def sampleState : EngineState :=
  { worldSeed := "w", chunks := [("0,0", sampleChunk)], chunkModifications := [],
    currentChunkCoords := (0, 0), mode := GameMode.EDIT, hoveredBlock := some (0, 0, 1),
    hoveredFace := some (0, 0, 1), selectedBlockType := some STONE,
    ambientLightLevel := 15, isMining := false, miningTarget := none, isInputDown := false }

def c1StateA : EngineState :=
  { worldSeed := "default", chunks := [], chunkModifications := [],
    currentChunkCoords := (0, 0), mode := GameMode.CAMERA, hoveredBlock := none,
    hoveredFace := none, selectedBlockType := none, ambientLightLevel := 15,
    isMining := false, miningTarget := none, isInputDown := false }

def c1StateB : EngineState :=
  { worldSeed := "default", chunks := [], 
    chunkModifications := [("0,0", [("1,2,3", none)])],
    currentChunkCoords := (3, 5), mode := GameMode.EDIT, hoveredBlock := some (1, 2, 3),
    hoveredFace := some (0, 0, 1), selectedBlockType := some STONE,
    ambientLightLevel := 4, isMining := true, miningTarget := some (1, 2, 3),
    isInputDown := true }

/-- Lookup of one voxel's record through the overlay: `some none` is an
explicit-cleared entry, `none` is "never recorded". -/
def overlayLookup (o : Overlay) (ck vk : String) : Option (Option Block) :=
  (lookupA o ck).bind fun r => lookupA r vk

def c6CamState : EngineState := { sampleState with mode := GameMode.CAMERA }

/-- The bedrock-floor invariant at column (x, y): the voxel at z = 0 is a
full-durability Bedrock block. -/
def bedrockAt (m : GridMap) (x y : Int) : Prop :=
  getB m x y 0 = some (mkBlock BEDROCK)

/-! # Infrastructure lemmas -/

theorem getD_setAt_self {α : Type} : ∀ (l : List α) (i : Nat) (d v : α),
    (setAt l i d v).getD i d = v
  | [], 0, _, _ => rfl
  | [], i + 1, d, v => by
    simpa [setAt] using getD_setAt_self ([] : List α) i d v
  | _ :: _, 0, _, _ => rfl
  | _ :: rest, i + 1, d, v => by
    simpa [setAt] using getD_setAt_self rest i d v

theorem getD_setAt_ne {α : Type} : ∀ (l : List α) (i j : Nat) (d v : α), i ≠ j →
    (setAt l i d v).getD j d = l.getD j d
  | [], 0, j, d, v, h => by
    cases j with
    | zero => exact absurd rfl h
    | succ k => simp [setAt]
  | [], i + 1, j, d, v, h => by
    cases j with
    | zero => simp [setAt]
    | succ k =>
      simpa [setAt] using getD_setAt_ne ([] : List α) i k d v (by omega)
  | _ :: rest, 0, j, d, v, h => by
    cases j with
    | zero => exact absurd rfl h
    | succ k => simp [setAt]
  | a :: rest, i + 1, j, d, v, h => by
    cases j with
    | zero => simp [setAt]
    | succ k =>
      simpa [setAt] using getD_setAt_ne rest i k d v (by omega)

theorem getB_setB_self (m : GridMap) {x y z : Int} (hx : 0 ≤ x) (hy : 0 ≤ y) (hz : 0 ≤ z)
    (b : Option Block) : getB (setB m x y z b) x y z = b := by
  have hc : 0 ≤ x ∧ 0 ≤ y ∧ 0 ≤ z := ⟨hx, hy, hz⟩
  simp only [getB, setB, if_pos hc]
  rw [getD_setAt_self, getD_setAt_self, getD_setAt_self]

theorem getB_setB_ne (m : GridMap) {x y z x' y' z' : Int}
    (h : ¬(x' = x ∧ y' = y ∧ z' = z)) (b : Option Block) :
    getB (setB m x' y' z' b) x y z = getB m x y z := by
  by_cases hw : 0 ≤ x' ∧ 0 ≤ y' ∧ 0 ≤ z'
  · by_cases hr : 0 ≤ x ∧ 0 ≤ y ∧ 0 ≤ z
    · simp only [getB, setB, if_pos hw, if_pos hr]
      by_cases hzz : z'.toNat = z.toNat
      · have hz : z' = z := by omega
        rw [hzz, getD_setAt_self]
        by_cases hyy : y'.toNat = y.toNat
        · have hy : y' = y := by omega
          have hxx : x'.toNat ≠ x.toNat := by
            intro hc
            exact h ⟨by omega, hy, hz⟩
          rw [hyy, getD_setAt_self, getD_setAt_ne _ _ _ _ _ hxx]
        · rw [getD_setAt_ne _ _ _ _ _ hyy]
      · rw [getD_setAt_ne _ _ _ _ _ hzz]
    · simp only [getB, setB, if_pos hw, if_neg hr]
  · simp only [setB, if_neg hw]

theorem getL_setL_self (lm : LightGrid) {x y z : Int} (hx : 0 ≤ x) (hy : 0 ≤ y) (hz : 0 ≤ z)
    (v : Nat) : getL (setL lm x y z v) x y z = v := by
  have hc : 0 ≤ x ∧ 0 ≤ y ∧ 0 ≤ z := ⟨hx, hy, hz⟩
  simp only [getL, setL, if_pos hc]
  rw [getD_setAt_self, getD_setAt_self, getD_setAt_self]

theorem getL_setL_ne (lm : LightGrid) {x y z x' y' z' : Int}
    (h : ¬(x' = x ∧ y' = y ∧ z' = z)) (v : Nat) :
    getL (setL lm x' y' z' v) x y z = getL lm x y z := by
  by_cases hw : 0 ≤ x' ∧ 0 ≤ y' ∧ 0 ≤ z'
  · by_cases hr : 0 ≤ x ∧ 0 ≤ y ∧ 0 ≤ z
    · simp only [getL, setL, if_pos hw, if_pos hr]
      by_cases hzz : z'.toNat = z.toNat
      · have hz : z' = z := by omega
        rw [hzz, getD_setAt_self]
        by_cases hyy : y'.toNat = y.toNat
        · have hy : y' = y := by omega
          have hxx : x'.toNat ≠ x.toNat := by
            intro hc
            exact h ⟨by omega, hy, hz⟩
          rw [hyy, getD_setAt_self, getD_setAt_ne _ _ _ _ _ hxx]
        · rw [getD_setAt_ne _ _ _ _ _ hyy]
      · rw [getD_setAt_ne _ _ _ _ _ hzz]
    · simp only [getL, setL, if_pos hw, if_neg hr]
  · simp only [setL, if_neg hw]

theorem lookupA_setA_self {β : Type} : ∀ (l : List (String × β)) (k : String) (v : β),
    lookupA (setA l k v) k = some v
  | [], k, v => by simp [setA, lookupA]
  | kv :: rest, k, v => by
    by_cases h : kv.1 = k
    · simp [setA, lookupA, h]
    · simp only [setA, if_neg h, lookupA, List.find?, decide_eq_false h]
      simpa [lookupA] using lookupA_setA_self rest k v

theorem lookupA_setA_ne {β : Type} : ∀ (l : List (String × β)) (k k' : String) (v : β),
    k' ≠ k → lookupA (setA l k' v) k = lookupA l k
  | [], k, k', v, h => by simp [setA, lookupA, List.find?, decide_eq_false h]
  | kv :: rest, k, k', v, h => by
    by_cases hk : kv.1 = k'
    · have hne : kv.1 ≠ k := hk ▸ h
      simp only [setA, if_pos hk, lookupA, List.find?, decide_eq_false h, decide_eq_false hne]
    · simp only [setA, if_neg hk, lookupA, List.find?]
      by_cases hh : kv.1 = k
      · simp only [decide_eq_true hh]
      · simp only [decide_eq_false hh]
        simpa [lookupA] using lookupA_setA_ne rest k k' v h

/-- A fold whose every step preserves a predicate preserves it overall. -/
theorem foldl_preserves {α β : Type} {P : α → Prop} (f : α → β → α) :
    ∀ (l : List β) (s : α), (∀ a b, P a → P (f a b)) → P s → P (l.foldl f s)
  | [], _, _, hs => hs
  | b :: rest, s, hf, hs => foldl_preserves f rest (f s b) hf (hf s b hs)

/-! # Claim C10: total light-map access -/

/-- C10: light-map access is total at every coordinate — for any (x,y,z)
outside `[0,size)x[0,size)x[0,WORLD_HEIGHT)`, `getLight` returns 0 and
`setLight` returns the stored grid unchanged, so out-of-range coordinates
reached during the sky pass, source injection and BFS propagation never
fault and never alter any stored value. -/
theorem C10_light_access_total (lm : LightGrid) (x y z : Int) (v : Nat) (size : Nat)
    (h : x < 0 ∨ (size : Int) ≤ x ∨ y < 0 ∨ (size : Int) ≤ y ∨
      z < 0 ∨ (WORLD_HEIGHT : Int) ≤ z) :
    getLight lm x y z size = 0 ∧ setLight lm x y z v size = lm := by
  rw [getLight, setLight, if_pos h, if_pos h]
  exact ⟨rfl, rfl⟩

/-- Witness for C10 at the concrete out-of-range coordinate (-1, 0, 70). -/
theorem C10_light_access_total_witness :
    ((-1 : Int) < 0 ∨ ((1 : Nat) : Int) ≤ -1 ∨ (0 : Int) < 0 ∨ ((1 : Nat) : Int) ≤ 0 ∨
      (70 : Int) < 0 ∨ ((WORLD_HEIGHT : Nat) : Int) ≤ 70) ∧
    getLight (emptyLightGrid 1) (-1) 0 70 1 = 0 ∧
    setLight (emptyLightGrid 1) (-1) 0 70 5 1 = emptyLightGrid 1 :=
  ⟨by decide, C10_light_access_total (emptyLightGrid 1) (-1) 0 70 5 1 (by decide)⟩

/-! # Claim C8: the 256-entry noise table -/

set_option maxRecDepth 100000 in
/-- C8 counterexample: the table is built by 256 INDEPENDENT draws
`Math.floor(prng.next() * 256)`, not by shuffling; for the engine's
default seed "default" the entries at indices 2 and 20 are both 8, and
the value 9 never occurs, so the table is not a permutation of 0..255. -/
theorem C8_counterexample :
    (buildPermutation "default").length = 256 ∧
    (buildPermutation "default").getD 2 0 = 8 ∧
    (buildPermutation "default").getD 20 0 = 8 ∧
    (buildPermutation "default").count 9 = 0 := by
  refine ⟨by decide, by decide, by decide, by decide⟩

theorem xor32_lt {a b : Nat} (ha : a < U32MOD) (hb : b < U32MOD) : Nat.xor a b < U32MOD := by
  have h32 : U32MOD = 2 ^ 32 := by decide
  rw [h32] at ha hb ⊢
  exact Nat.xor_lt_two_pow ha hb

theorem shiftRight_le_self (a k : Nat) : a >>> k ≤ a := by
  rw [Nat.shiftRight_eq_div_pow]
  exact Nat.div_le_self _ _

theorem srNext_snd_lt (s : Nat) : (srNext s).2 < U32MOD := by
  have hmod : ∀ a : Nat, a % U32MOD < U32MOD := fun a => Nat.mod_lt _ (by decide)
  simp only [srNext, imul32]
  apply xor32_lt (xor32_lt (hmod _) (hmod _))
  exact lt_of_le_of_lt (shiftRight_le_self _ _) (xor32_lt (hmod _) (hmod _))

theorem qfloor_natCast (a b : Nat) : qfloor ⟨(a : Int), (b : Int)⟩ = ((a / b : Nat) : Int) :=
  (Int.ofNat_fdiv a b).symm

theorem permDraw_lt {t : Nat} (ht : t < U32MOD) :
    (qfloor (qmul ⟨(t : Int), (U32MOD : Int)⟩ (Q.ofInt 256))).toNat < 256 := by
  have hsh : qmul ⟨(t : Int), (U32MOD : Int)⟩ (Q.ofInt 256) =
      ⟨((t * 256 : Nat) : Int), ((U32MOD * 1 : Nat) : Int)⟩ := by
    simp only [qmul, Q.ofInt]
    congr 1
  rw [hsh, qfloor_natCast]
  have hd : t * 256 / (U32MOD * 1) < 256 := by
    rw [Nat.div_lt_iff_lt_mul (by decide)]
    have h32 : U32MOD = 4294967296 := rfl
    omega
  simpa using hd

theorem permDraws_spec : ∀ (n s : Nat),
    (permDraws n s).1.length = n ∧ ∀ v ∈ (permDraws n s).1, v < 256
  | 0, _ => ⟨rfl, by intro v hv; cases hv⟩
  | n + 1, s => by
    have ih := permDraws_spec n (srNext s).1
    simp only [permDraws, srNextQ]
    constructor
    · simpa using ih.1
    · intro v hv
      rcases List.mem_cons.mp (by simpa using hv) with h | h
      · subst h
        exact permDraw_lt (srNext_snd_lt s)
      · exact ih.2 v h

/-- C8 amended: for every seed string the table the noise constructor
builds has exactly 256 entries and every entry lies in 0..255; the
entries are independent draws, so values may repeat and the table need
not be a permutation (see the counterexample at seed "default"). -/
theorem C8_perm_table_range (seedStr : String) :
    (buildPermutation seedStr).length = 256 ∧
    ∀ v ∈ buildPermutation seedStr, v < 256 :=
  permDraws_spec 256 (seedHash seedStr)

/-- Witness for C8 amended at the seed "a". -/
theorem C8_perm_table_range_witness :
    (buildPermutation "a").length = 256 ∧ ∀ v ∈ buildPermutation "a", v < 256 :=
  C8_perm_table_range "a"

/-! # Claim C7: cave carving never breaches the surface -/

theorem caveAt_false_of_buffer (p : List Nat) (gx gy : Int) (z : Nat) (sh : Int)
    (hbuf : sh - 12 ≤ (z : Int)) : caveAt p gx gy z sh = false := by
  unfold caveAt
  rw [decide_eq_false (by omega : ¬((z : Int) < sh - 12))]
  exact Bool.and_false _

/-- C7: a voxel is hollowed as a cave only when the 3D noise magnitude
lies in the band `|n| < 0.16` AND the voxel lies strictly more than 12
layers below its column's surface height; consequently the column fill
never removes a voxel at `z ≥ surfaceHeight - 12`: every such voxel of
the solid part of the column (`1 ≤ z ≤ surfaceHeight`) stays occupied. -/
theorem C7_caves_never_breach_surface (p : List Nat) (bp : BiomeParams) (biome : BiomeType)
    (baseHeight : Nat) (cx cy : Int) (size : Nat) (nB sB wB eB : BiomeType)
    (x y z : Nat) (gx gy : Int) (sh : Int) :
    (caveAt p gx gy z sh = true → (z : Int) < sh - 12) ∧
    (sh - 12 ≤ (z : Int) → caveAt p gx gy z sh = false) ∧
    (1 ≤ z →
     (z : Int) ≤ surfaceHeightAt biome p (cx * (MAX_CHUNK_SIZE : Int))
        (cy * (MAX_CHUNK_SIZE : Int)) baseHeight x y →
     surfaceHeightAt biome p (cx * (MAX_CHUNK_SIZE : Int))
        (cy * (MAX_CHUNK_SIZE : Int)) baseHeight x y - 12 ≤ (z : Int) →
     columnBlock p bp biome baseHeight cx cy size nB sB wB eB x y z ≠ none) := by
  refine ⟨?_, ?_, ?_⟩
  · intro hc
    by_contra hno
    rw [caveAt_false_of_buffer p gx gy z sh (by omega)] at hc
    cases hc
  · exact caveAt_false_of_buffer p gx gy z sh
  · intro hz1 hzle hzbuf
    unfold columnBlock
    rw [if_neg (by omega : ¬z = 0), if_pos hzle]
    have hcave := caveAt_false_of_buffer p (cx * (MAX_CHUNK_SIZE : Int) + x)
      (cy * (MAX_CHUNK_SIZE : Int) + y) z
      (surfaceHeightAt biome p (cx * (MAX_CHUNK_SIZE : Int)) (cy * (MAX_CHUNK_SIZE : Int))
        baseHeight x y) (by omega)
    simp only [hcave, Bool.false_eq_true, if_false]
    split
    · simp
    · split <;> simp

/-- Witness for C7 at the all-zero lookup table, column (0,0) of chunk
(0,0) in grassland parameters, voxel z = 30 (surface height is 38 there,
so z lies in `[surfaceHeight - 12, surfaceHeight]`). -/
theorem C7_caves_never_breach_surface_witness :
    caveAt (List.replicate 512 0) 0 0 30 (-1) = false ∧
    columnBlock (List.replicate 512 0) (biomeParams BiomeType.GRASSLAND)
      BiomeType.GRASSLAND 38 0 0 30 BiomeType.GRASSLAND BiomeType.GRASSLAND
      BiomeType.GRASSLAND BiomeType.GRASSLAND 0 0 30 ≠ none :=
  ⟨(C7_caves_never_breach_surface (List.replicate 512 0)
      (biomeParams BiomeType.GRASSLAND) BiomeType.GRASSLAND 38 0 0 30
      BiomeType.GRASSLAND BiomeType.GRASSLAND BiomeType.GRASSLAND BiomeType.GRASSLAND
      0 0 30 0 0 (-1)).2.1 (by decide),
   (C7_caves_never_breach_surface (List.replicate 512 0)
      (biomeParams BiomeType.GRASSLAND) BiomeType.GRASSLAND 38 0 0 30
      BiomeType.GRASSLAND BiomeType.GRASSLAND BiomeType.GRASSLAND BiomeType.GRASSLAND
      0 0 30 0 0 (-1)).2.2 (by decide) (by decide) (by decide)⟩

/-! # Claim C1: deterministic chunk generation -/

/-- C1: chunk generation is deterministic and state-independent before the
overlay — for any two engine states sharing a world seed (all other state:
cache, overlay, mode, cursor, ambient light, current coordinate may
differ), the biome classification, the drawn chunk size and every voxel of
the pre-overlay generated grid (steps 1-7: sizing, column fill, caves,
border blending, crater, lakes, structures) coincide. -/
theorem C1_chunk_generation_deterministic (s1 s2 : EngineState) (cx cy : Int)
    (h : s1.worldSeed = s2.worldSeed) :
    getBiomeAt s1.worldSeed cx cy = getBiomeAt s2.worldSeed cx cy ∧
    (generatedPre s1.worldSeed cx cy (getBiomeAt s1.worldSeed cx cy)).2.1 =
      (generatedPre s2.worldSeed cx cy (getBiomeAt s2.worldSeed cx cy)).2.1 ∧
    ∀ x y z : Int,
      getB (generatedPre s1.worldSeed cx cy (getBiomeAt s1.worldSeed cx cy)).1 x y z =
        getB (generatedPre s2.worldSeed cx cy (getBiomeAt s2.worldSeed cx cy)).1 x y z := by
  rw [h]
  exact ⟨rfl, rfl, fun _ _ _ => rfl⟩

/-- Witness for C1: two engine states equal only in their seed. -/
theorem C1_chunk_generation_deterministic_witness :
    getBiomeAt c1StateA.worldSeed 0 0 = getBiomeAt c1StateB.worldSeed 0 0 ∧
    (generatedPre c1StateA.worldSeed 0 0 (getBiomeAt c1StateA.worldSeed 0 0)).2.1 =
      (generatedPre c1StateB.worldSeed 0 0 (getBiomeAt c1StateB.worldSeed 0 0)).2.1 ∧
    ∀ x y z : Int,
      getB (generatedPre c1StateA.worldSeed 0 0 (getBiomeAt c1StateA.worldSeed 0 0)).1 x y z =
        getB (generatedPre c1StateB.worldSeed 0 0 (getBiomeAt c1StateB.worldSeed 0 0)).1 x y z :=
  C1_chunk_generation_deterministic c1StateA c1StateB 0 0 rfl

/-! # Claim C5: lossless overlay round trip -/

theorem blockTypeOfId_blockTypeId (t : BlockType) :
    blockTypeOfId (blockTypeId t) = some t := by
  cases t <;> rfl

theorem decodeBlock_encodeBlock (b : Block) : decodeBlock (encodeBlock b) = some b := by
  obtain ⟨t, hp, nat, var⟩ := b
  cases nat <;> cases var <;>
    simp [encodeBlock, decodeBlock, blockTypeOfId_blockTypeId]

theorem decodeEntry_encodeEntry (e : String × Option Block) :
    decodeEntry (encodeEntry e) = some e := by
  obtain ⟨k, ob⟩ := e
  cases ob with
  | none => rfl
  | some b =>
    obtain ⟨t, hp, nat, var⟩ := b
    cases nat <;> cases var <;>
      simp [encodeEntry, encodeBlock, decodeEntry, decodeBlock, blockTypeOfId_blockTypeId]

theorem decodeList_map {α : Type} (f : Json → Option α) (enc : α → Json)
    (h : ∀ a, f (enc a) = some a) : ∀ l : List α, decodeList f (l.map enc) = some l
  | [] => rfl
  | a :: rest => by
    simp only [List.map_cons, decodeList, h a, decodeList_map f enc h rest]

/-- C5: serialising the modification overlay and deserialising it
reproduces the overlay exactly — the decoded overlay equals the original,
hence for every chunk key and local voxel key the recorded entry
(including an explicit-cleared entry, kept distinct from an absent key)
is present and unchanged after the round trip. -/
theorem C5_overlay_roundtrip (o : Overlay) :
    deserializeOverlay (serializeOverlay o) = some o ∧
    ∀ ck vk : String,
      overlayLookup ((deserializeOverlay (serializeOverlay o)).getD []) ck vk =
        overlayLookup o ck vk := by
  have hmain : deserializeOverlay (serializeOverlay o) = some o := by
    unfold serializeOverlay deserializeOverlay
    refine decodeList_map _ _ ?_ o
    intro ckv
    simp [decodeList_map decodeEntry encodeEntry decodeEntry_encodeEntry ckv.2]
  refine ⟨hmain, fun ck vk => ?_⟩
  rw [hmain]
  rfl

/-! # Claim C9: the modifyBlock write path -/

theorem lookupA_markDirtyOne (chunks : List (String × Chunk)) (key k : String) :
    lookupA (markDirtyOne chunks key) k =
      if k = key then (lookupA chunks k).map (fun c => { c with isDirty := true })
      else lookupA chunks k := by
  unfold markDirtyOne
  cases h : lookupA chunks key with
  | none =>
    by_cases hk : k = key
    · subst hk
      rw [if_pos rfl, h]
      rfl
    · rw [if_neg hk]
  | some c =>
    by_cases hk : k = key
    · subst hk
      rw [if_pos rfl, h, lookupA_setA_self]
      rfl
    · rw [if_neg hk]
      exact lookupA_setA_ne _ _ _ _ (fun hh => hk hh.symm)

theorem dirty_update_idem (c : Chunk) :
    ({ { c with isDirty := true } with isDirty := true } : Chunk) = { c with isDirty := true } := rfl

theorem lookupA_markDirtyFold : ∀ (keys : List String) (chunks : List (String × Chunk))
    (k : String),
    lookupA (keys.foldl markDirtyOne chunks) k =
      if k ∈ keys then (lookupA chunks k).map (fun c => { c with isDirty := true })
      else lookupA chunks k
  | [], chunks, k => by simp
  | key :: rest, chunks, k => by
    simp only [List.foldl_cons]
    rw [lookupA_markDirtyFold rest (markDirtyOne chunks key) k, lookupA_markDirtyOne]
    by_cases h1 : k ∈ rest
    · rw [if_pos h1, if_pos (List.mem_cons_of_mem _ h1)]
      by_cases h2 : k = key
      · rw [if_pos h2]
        cases lookupA chunks k <;> rfl
      · rw [if_neg h2]
    · rw [if_neg h1]
      by_cases h2 : k = key
      · rw [if_pos h2, if_pos (by rw [List.mem_cons]; exact Or.inl h2)]
      · rw [if_neg h2, if_neg (by rw [List.mem_cons]; exact fun h => h.elim h2 h1)]

/-- The loaded-chunk effect of `modifyBlock`: the stored chunk at the
modified key becomes the patched, relit, dirty chunk. -/
theorem modifyBlock_lookup_center (st : EngineState) (fuel : Nat) (cx cy x y z : Int)
    (b : Option Block) (c : Chunk)
    (hc : lookupA st.chunks (getChunkKey cx cy) = some c) :
    lookupA (modifyBlock st fuel cx cy x y z b).chunks (getChunkKey cx cy) =
      some { c with map := setB c.map x y z b,
                    lightMap := (calculateLighting (setB c.map x y z b) c.size
                      st.ambientLightLevel (decide (st.currentChunkCoords = (0, 0))) fuel
                      (emptyLightGrid c.size)).1,
                    isDirty := true } := by
  unfold modifyBlock
  rw [hc]
  simp only [markNeighborChunksDirty]
  rw [lookupA_markDirtyFold, lookupA_setA_self]
  by_cases hmem : getChunkKey cx cy ∈ neighborKeys cx cy
  · rw [if_pos hmem]
    rfl
  · rw [if_neg hmem]
    rfl

/-- The overlay effect of `modifyBlock`: the (chunk key, voxel key) entry
records exactly the written block (or the explicit clear). -/
theorem modifyBlock_overlay (st : EngineState) (fuel : Nat) (cx cy x y z : Int)
    (b : Option Block) :
    overlayLookup (modifyBlock st fuel cx cy x y z b).chunkModifications
      (getChunkKey cx cy) (getVoxelKey x y z) = some b ∧
    ∀ ck, ck ≠ getChunkKey cx cy →
      lookupA (modifyBlock st fuel cx cy x y z b).chunkModifications ck =
        lookupA st.chunkModifications ck := by
  have hcm : (modifyBlock st fuel cx cy x y z b).chunkModifications =
      setA st.chunkModifications (getChunkKey cx cy)
        (setA ((lookupA st.chunkModifications (getChunkKey cx cy)).getD [])
          (getVoxelKey x y z) b) := by
    unfold modifyBlock
    cases h : lookupA st.chunks (getChunkKey cx cy) with
    | none => rfl
    | some c => rfl
  rw [hcm]
  constructor
  · unfold overlayLookup
    rw [lookupA_setA_self]
    exact lookupA_setA_self _ _ _
  · intro ck hck
    exact lookupA_setA_ne _ _ _ _ (fun h => hck h.symm)

theorem modifyBlock_preserves_misc (st : EngineState) (fuel : Nat) (cx cy x y z : Int)
    (b : Option Block) :
    (modifyBlock st fuel cx cy x y z b).worldSeed = st.worldSeed ∧
    (modifyBlock st fuel cx cy x y z b).currentChunkCoords = st.currentChunkCoords ∧
    (modifyBlock st fuel cx cy x y z b).mode = st.mode ∧
    (modifyBlock st fuel cx cy x y z b).hoveredBlock = st.hoveredBlock ∧
    (modifyBlock st fuel cx cy x y z b).hoveredFace = st.hoveredFace ∧
    (modifyBlock st fuel cx cy x y z b).selectedBlockType = st.selectedBlockType ∧
    (modifyBlock st fuel cx cy x y z b).ambientLightLevel = st.ambientLightLevel ∧
    (modifyBlock st fuel cx cy x y z b).isMining = st.isMining ∧
    (modifyBlock st fuel cx cy x y z b).miningTarget = st.miningTarget ∧
    (modifyBlock st fuel cx cy x y z b).isInputDown = st.isInputDown := by
  unfold modifyBlock
  cases h : lookupA st.chunks (getChunkKey cx cy) with
  | none => exact ⟨rfl, rfl, rfl, rfl, rfl, rfl, rfl, rfl, rfl, rfl⟩
  | some c => exact ⟨rfl, rfl, rfl, rfl, rfl, rfl, rfl, rfl, rfl, rfl⟩

theorem modifyBlock_chunks_eq (st : EngineState) (fuel : Nat) (cx cy x y z : Int)
    (b : Option Block) (c : Chunk)
    (hc : lookupA st.chunks (getChunkKey cx cy) = some c) :
    (modifyBlock st fuel cx cy x y z b).chunks =
      markNeighborChunksDirty
        (setA st.chunks (getChunkKey cx cy) (patchedChunk st fuel c x y z b)) cx cy := by
  unfold modifyBlock
  rw [hc]

/-- C9: after every mutation through the write path `modifyBlock`, the
modification record for that chunk holds the new entry (all other chunk
records untouched); the loaded in-memory copy is patched at exactly that
voxel and marked dirty with every other own field preserved; each loaded
orthogonal neighbour is marked dirty with all its other fields unchanged;
chunks at any other key and the rest of the engine state are unchanged. -/
theorem C9_modifyBlock_frame (st : EngineState) (fuel : Nat) (cx cy x y z : Int)
    (b : Option Block) (c : Chunk)
    (hx : 0 ≤ x) (hy : 0 ≤ y) (hz : 0 ≤ z)
    (hc : lookupA st.chunks (getChunkKey cx cy) = some c) :
    overlayLookup (modifyBlock st fuel cx cy x y z b).chunkModifications
      (getChunkKey cx cy) (getVoxelKey x y z) = some b ∧
    (∀ ck, ck ≠ getChunkKey cx cy →
      lookupA (modifyBlock st fuel cx cy x y z b).chunkModifications ck =
        lookupA st.chunkModifications ck) ∧
    (∃ c2, lookupA (modifyBlock st fuel cx cy x y z b).chunks (getChunkKey cx cy) = some c2 ∧
      getB c2.map x y z = b ∧
      (∀ x2 y2 z2 : Int, ¬(x2 = x ∧ y2 = y ∧ z2 = z) →
        getB c2.map x2 y2 z2 = getB c.map x2 y2 z2) ∧
      c2.isDirty = true ∧ c2.size = c.size ∧ c2.biome = c.biome ∧
      c2.averageSurfaceHeight = c.averageSurfaceHeight ∧
      c2.coordX = c.coordX ∧ c2.coordY = c.coordY ∧
      c2.lastCameraHash = c.lastCameraHash) ∧
    (∀ nk ∈ neighborKeys cx cy, nk ≠ getChunkKey cx cy →
      lookupA (modifyBlock st fuel cx cy x y z b).chunks nk =
        (lookupA st.chunks nk).map (fun cn => { cn with isDirty := true })) ∧
    (∀ k, k ≠ getChunkKey cx cy → k ∉ neighborKeys cx cy →
      lookupA (modifyBlock st fuel cx cy x y z b).chunks k = lookupA st.chunks k) ∧
    (modifyBlock st fuel cx cy x y z b).worldSeed = st.worldSeed ∧
    (modifyBlock st fuel cx cy x y z b).currentChunkCoords = st.currentChunkCoords ∧
    (modifyBlock st fuel cx cy x y z b).mode = st.mode := by
  obtain ⟨hov1, hov2⟩ := modifyBlock_overlay st fuel cx cy x y z b
  have hmisc := modifyBlock_preserves_misc st fuel cx cy x y z b
  refine ⟨hov1, hov2, ?_, ?_, ?_, hmisc.1, hmisc.2.1, hmisc.2.2.1⟩
  · refine ⟨patchedChunk st fuel c x y z b,
      modifyBlock_lookup_center st fuel cx cy x y z b c hc, ?_, ?_, rfl, rfl, rfl, rfl, rfl,
      rfl, rfl⟩
    · exact getB_setB_self _ hx hy hz b
    · intro x2 y2 z2 hne
      exact getB_setB_ne _ (fun hh => hne ⟨hh.1.symm, hh.2.1.symm, hh.2.2.symm⟩) b
  · intro nk hnk hne
    rw [modifyBlock_chunks_eq st fuel cx cy x y z b c hc]
    simp only [markNeighborChunksDirty]
    rw [lookupA_markDirtyFold, if_pos hnk, lookupA_setA_ne _ _ _ _ (fun h => hne h.symm)]
  · intro k hk hnk
    rw [modifyBlock_chunks_eq st fuel cx cy x y z b c hc]
    simp only [markNeighborChunksDirty]
    rw [lookupA_markDirtyFold, if_neg hnk, lookupA_setA_ne _ _ _ _ (fun h => hk h.symm)]

/-- Witness for C9: clearing voxel (0,0,1) of the loaded origin chunk
records the explicit-cleared entry in the overlay. -/
theorem C9_modifyBlock_frame_witness :
    overlayLookup (modifyBlock sampleState 200 0 0 0 0 1 none).chunkModifications
      (getChunkKey 0 0) (getVoxelKey 0 0 1) = some none ∧
    ∃ c2, lookupA (modifyBlock sampleState 200 0 0 0 0 1 none).chunks
        (getChunkKey 0 0) = some c2 ∧ getB c2.map 0 0 1 = none := by
  have h := C9_modifyBlock_frame sampleState 200 0 0 0 0 1 none sampleChunk
    (by decide) (by decide) (by decide) (by decide)
  obtain ⟨c2, hl, hg, _⟩ := h.2.2.1
  exact ⟨h.1, c2, hl, hg⟩

/-! # Claim C2 (counterexample part): modifyBlock does not protect bedrock -/

/-- C2 counterexample: the write path has no Bedrock guard — on a loaded
chunk whose (0,0,0) voxel is Bedrock, `modifyBlock` at z = 0 with a
cleared entry removes it, so the z = 0 Bedrock voxel is NOT preserved by
every engine operation. -/
theorem C2_counterexample :
    getB sampleChunk.map 0 0 0 = some (mkBlock BEDROCK) ∧
    ∃ c2, lookupA (modifyBlock sampleState 200 0 0 0 0 0 none).chunks
        (getChunkKey 0 0) = some c2 ∧ getB c2.map 0 0 0 = none := by
  refine ⟨by decide, patchedChunk sampleState 200 sampleChunk 0 0 0 none,
    modifyBlock_lookup_center sampleState 200 0 0 0 0 0 none sampleChunk (by decide), ?_⟩
  exact getB_setB_self _ (by decide) (by decide) (by decide) none

/-! # Claim C6: placeBlock bounds, occupancy and mode -/

/-- C6 (amended): `placeBlock` is a silent no-op leaving the whole engine
state (chunk grids and overlay included) unchanged whenever the engine is
not in edit mode, or no block or face is hovered, or no block type is
selected; when the engine is in edit mode with a hovered block, a hovered
face and a selected type, the target cell is the hovered block shifted by
the face normal, and `placeBlock` is a silent no-op exactly when the
target is outside `[0,size)x[0,size)x[0,WORLD_HEIGHT)` or already
occupied — otherwise it commits exactly the one new block at the target
through `modifyBlock` (the modification store) and fires the placement
event. -/
theorem C6_placeBlock_characterized (st : EngineState) (fuel : Nat) :
    ((st.mode ≠ GameMode.EDIT ∨ st.hoveredBlock = none ∨ st.hoveredFace = none ∨
        st.selectedBlockType = none) → placeBlock st fuel = (st, [])) ∧
    (∀ (hb hf : Int × Int × Int) (t : BlockType) (c : Chunk),
      st.mode = GameMode.EDIT → st.hoveredBlock = some hb → st.hoveredFace = some hf →
      st.selectedBlockType = some t →
      lookupA st.chunks (getChunkKey st.currentChunkCoords.1 st.currentChunkCoords.2) =
        some c →
      placeBlock st fuel =
        if hb.1 + hf.1 < 0 ∨ hb.2.1 + hf.2.1 < 0 ∨ hb.2.2 + hf.2.2 < 0 ∨
            (c.size : Int) ≤ hb.1 + hf.1 ∨ (c.size : Int) ≤ hb.2.1 + hf.2.1 ∨
            (WORLD_HEIGHT : Int) ≤ hb.2.2 + hf.2.2 then (st, [])
        else if getB c.map (hb.1 + hf.1) (hb.2.1 + hf.2.1) (hb.2.2 + hf.2.2) ≠ none then
          (st, [])
        else
          (modifyBlock st fuel st.currentChunkCoords.1 st.currentChunkCoords.2
            (hb.1 + hf.1) (hb.2.1 + hf.2.1) (hb.2.2 + hf.2.2)
            (some { type := t, hp := (BLOCK_DEFINITIONS t).hp }),
           [GameEvent.blockPlaced t])) := by
  constructor
  · intro h
    unfold placeBlock
    cases hmm : st.mode <;> cases hbb : st.hoveredBlock <;> cases hff : st.hoveredFace <;>
      cases htt : st.selectedBlockType <;> simp_all
  · intro hb hf t c hm hhb hhf hts hc
    unfold placeBlock
    rw [hm, hhb, hhf, hts, hc]

/-- C6 counterexample to the claim as stated: in camera mode with a valid
hovered block and face, a selected type, and an in-bounds unoccupied
target, `placeBlock` still changes nothing and fires nothing — the claim's
"otherwise commits exactly one new block" case does not hold without the
edit-mode condition. -/
theorem C6_counterexample :
    c6CamState.selectedBlockType = some STONE ∧
    c6CamState.hoveredBlock = some (0, 0, 1) ∧
    c6CamState.hoveredFace = some (0, 0, 1) ∧
    ¬((0 : Int) + 0 < 0 ∨ (0 : Int) + 0 < 0 ∨ (1 : Int) + 1 < 0 ∨
        ((sampleChunk.size : Nat) : Int) ≤ 0 + 0 ∨ ((sampleChunk.size : Nat) : Int) ≤ 0 + 0 ∨
        ((WORLD_HEIGHT : Nat) : Int) ≤ 1 + 1) ∧
    getB sampleChunk.map (0 + 0) (0 + 0) (1 + 1) = none ∧
    placeBlock c6CamState 200 = (c6CamState, []) := by
  refine ⟨rfl, rfl, rfl, by decide, by decide, rfl⟩

/-- Witness for C6: in edit mode the same state commits through the
modification store and fires the placement event. -/
theorem C6_placeBlock_characterized_witness :
    placeBlock sampleState 200 =
      (modifyBlock sampleState 200 0 0 0 0 2 (some { type := STONE, hp := 60 }),
       [GameEvent.blockPlaced STONE]) := by
  have h := (C6_placeBlock_characterized sampleState 200).2 (0, 0, 1) (0, 0, 1) STONE
    sampleChunk rfl rfl rfl rfl (by decide)
  rw [if_neg (by decide), if_neg (by decide)] at h
  simpa [sampleState, BLOCK_DEFINITIONS] using h

/-! # Claim C3: mining completion (spec-modelled tick) -/

theorem miningTick_active (st : EngineState) (fuel : Nat) (tgt : Int × Int × Int)
    (c : Chunk) (b : Block)
    (hmode : st.mode = GameMode.EDIT) (hmin : st.isMining = true)
    (hinp : st.isInputDown = true) (htgt : st.miningTarget = some tgt)
    (hc : lookupA st.chunks
      (getChunkKey st.currentChunkCoords.1 st.currentChunkCoords.2) = some c)
    (hb : getB c.map tgt.1 tgt.2.1 tgt.2.2 = some b) :
    miningTick st fuel =
      if b.hp - MINE_SPEED ≤ 0 then
        ({ modifyBlock st fuel st.currentChunkCoords.1 st.currentChunkCoords.2
            tgt.1 tgt.2.1 tgt.2.2 none with
            isMining := false, miningTarget := none },
         [GameEvent.inventoryUpdate b.type])
      else ({ st with chunks := minedChunks st c tgt b }, []) := by
  unfold miningTick
  rw [if_pos ⟨hmode, hmin, hinp⟩]
  simp only [htgt, hc, hb]

theorem miningTick_idle (st : EngineState) (fuel : Nat) (h : st.isMining = false) :
    miningTick st fuel = (st, []) := by
  unfold miningTick
  rw [if_neg (by simp [h])]

theorem miningRun_succ (st : EngineState) (fuel n : Nat) :
    miningRun st fuel (n + 1) =
      ((miningRun (miningTick st fuel).1 fuel n).1,
       (miningTick st fuel).2 ++ (miningRun (miningTick st fuel).1 fuel n).2) := rfl

theorem miningRun_idle (st : EngineState) (fuel : Nat) (h : st.isMining = false) :
    ∀ n, miningRun st fuel n = (st, [])
  | 0 => rfl
  | n + 1 => by
    rw [miningRun_succ, miningTick_idle st fuel h, miningRun_idle st fuel h n]
    rfl

/-- C3: with a valid target voxel of durability D ≥ 1 under held input in
edit mode, each simulation tick decrements the target's durability by the
fixed rate `MINE_SPEED = 1`; every run shorter than D ticks fires no
event, and after exactly D ticks (and ever after) the voxel is removed
from the chunk grid and exactly one inventory-update event has fired,
carrying that voxel's type. -/
theorem C3_mining_completion : ∀ (D : Nat), 1 ≤ D →
    ∀ (st : EngineState) (fuel : Nat) (tgt : Int × Int × Int) (c : Chunk) (b : Block),
    st.mode = GameMode.EDIT → st.isMining = true → st.isInputDown = true →
    st.miningTarget = some tgt →
    0 ≤ tgt.1 → 0 ≤ tgt.2.1 → 0 ≤ tgt.2.2 →
    lookupA st.chunks
      (getChunkKey st.currentChunkCoords.1 st.currentChunkCoords.2) = some c →
    getB c.map tgt.1 tgt.2.1 tgt.2.2 = some b →
    b.hp = (D : Int) →
    (∀ k, k < D → (miningRun st fuel k).2 = []) ∧
    (∀ e, (miningRun st fuel (D + e)).2 = [GameEvent.inventoryUpdate b.type] ∧
      ∃ c2, lookupA (miningRun st fuel (D + e)).1.chunks
          (getChunkKey st.currentChunkCoords.1 st.currentChunkCoords.2) = some c2 ∧
        getB c2.map tgt.1 tgt.2.1 tgt.2.2 = none)
  | 0, hD => by omega
  | 1, _ => by
    intro st fuel tgt c b hmode hmin hinp htgt hx hy hz hc hb hhp
    have htick := miningTick_active st fuel tgt c b hmode hmin hinp htgt hc hb
    rw [if_pos (by rw [hhp]; simp [MINE_SPEED])] at htick
    constructor
    · intro k hk
      interval_cases k
      rfl
    · intro e
      have hfin : (miningTick st fuel).1.isMining = false := by rw [htick]
      have hstate : ∀ n, miningRun (miningTick st fuel).1 fuel n =
          ((miningTick st fuel).1, []) := miningRun_idle _ fuel hfin
      have hrun : miningRun st fuel (1 + e) =
          ((miningTick st fuel).1, [GameEvent.inventoryUpdate b.type]) := by
        have h1e : 1 + e = e + 1 := by omega
        rw [h1e, miningRun_succ, hstate e, htick]
        rfl
      rw [hrun]
      refine ⟨rfl, patchedChunk st fuel c tgt.1 tgt.2.1 tgt.2.2 none, ?_, ?_⟩
      · rw [htick]
        exact modifyBlock_lookup_center st fuel st.currentChunkCoords.1
          st.currentChunkCoords.2 tgt.1 tgt.2.1 tgt.2.2 none c hc
      · exact getB_setB_self _ hx hy hz none
  | d + 2, _ => by
    intro st fuel tgt c b hmode hmin hinp htgt hx hy hz hc hb hhp
    have htick := miningTick_active st fuel tgt c b hmode hmin hinp htgt hc hb
    rw [if_neg (by rw [hhp]; simp only [MINE_SPEED]; push_cast; omega)] at htick
    have hev : (miningTick st fuel).2 = [] := by rw [htick]
    have hst1 : (miningTick st fuel).1 =
        { st with chunks := minedChunks st c tgt b } := by rw [htick]
    have hcn : lookupA ({ st with chunks := minedChunks st c tgt b } : EngineState).chunks
        (getChunkKey st.currentChunkCoords.1 st.currentChunkCoords.2) =
        some { c with
          map := setB c.map tgt.1 tgt.2.1 tgt.2.2 (some { b with hp := b.hp - MINE_SPEED }) } := by
      simp only [minedChunks]
      exact lookupA_setA_self _ _ _
    have ih := C3_mining_completion (d + 1) (by omega)
      { st with chunks := minedChunks st c tgt b } fuel tgt
      { c with
        map := setB c.map tgt.1 tgt.2.1 tgt.2.2 (some { b with hp := b.hp - MINE_SPEED }) }
      { b with hp := b.hp - MINE_SPEED }
      hmode hmin hinp htgt hx hy hz hcn (getB_setB_self _ hx hy hz _)
      (by show b.hp - MINE_SPEED = ((d + 1 : Nat) : Int)
          rw [hhp]
          simp only [MINE_SPEED]
          push_cast
          ring)
    constructor
    · intro k hk
      cases k with
      | zero => rfl
      | succ k2 =>
        rw [miningRun_succ, hev, hst1]
        have hih := ih.1 k2 (by omega)
        simpa using hih
    · intro e
      have ih2 := ih.2 e
      have hn : d + 2 + e = (d + 1 + e) + 1 := by omega
      rw [hn, miningRun_succ, hev, hst1]
      refine ⟨by simpa using ih2.1, ih2.2⟩

/-- Witness for C3: the stone voxel at (0,0,1) of the sample chunk
(durability 60), mined for exactly 60 ticks. -/
theorem C3_mining_completion_witness :
    (miningRun { sampleState with
        isMining := true, miningTarget := some (0, 0, 1), isInputDown := true } 200
      (60 + 0)).2 = [GameEvent.inventoryUpdate STONE] ∧
    ∃ c2, lookupA (miningRun { sampleState with
        isMining := true, miningTarget := some (0, 0, 1), isInputDown := true } 200
          (60 + 0)).1.chunks (getChunkKey 0 0) = some c2 ∧
      getB c2.map 0 0 1 = none := by
  have h := (C3_mining_completion 60 (by omega)
    { sampleState with isMining := true, miningTarget := some (0, 0, 1), isInputDown := true }
    200 (0, 0, 1) sampleChunk (mkBlock STONE) rfl rfl rfl rfl (by decide) (by decide)
    (by decide) (by decide) (by decide) (by decide)).2 0
  exact h

/-! # Claim C2 (amended part): the generation pipeline keeps the bedrock floor,
and placement never overwrites it -/

theorem getD_map_range {α : Type} (f : Nat → α) (n i : Nat) (d : α) (h : i < n) :
    (((List.range n).map f).getD i d) = f i := by
  rw [List.getD_eq_getElem?_getD, List.getElem?_map, List.getElem?_range h]
  rfl

theorem bedrockAt_setB {m : GridMap} {X Y : Int} (h : bedrockAt m X Y)
    (a b z : Int) (v : Option Block) (hne : ¬(a = X ∧ b = Y ∧ z = 0)) :
    bedrockAt (setB m a b z v) X Y := by
  unfold bedrockAt at h ⊢
  rw [getB_setB_ne m hne v]
  exact h

theorem buildBaseMap_bedrock (p : List Nat) (bp : BiomeParams) (bi : BiomeType)
    (bh : Nat) (cx cy : Int) (size : Nat) (nB sB wB eB : BiomeType) {x y : Int}
    (hx0 : 0 ≤ x) (hy0 : 0 ≤ y) (hx : x < (size : Int)) (hy : y < (size : Int)) :
    bedrockAt (buildBaseMap p bp bi bh cx cy size nB sB wB eB) x y := by
  have hx2 : x.toNat < size := by omega
  have hy2 : y.toNat < size := by omega
  unfold bedrockAt getB buildBaseMap
  rw [if_pos ⟨hx0, hy0, le_refl (0 : Int)⟩]
  have h0 : (0 : Int).toNat = 0 := rfl
  rw [h0, getD_map_range _ _ _ _ (by decide : 0 < WORLD_HEIGHT)]
  rw [getD_map_range _ _ _ _ hy2]
  rw [getD_map_range _ _ _ _ hx2]
  rfl

theorem foldl_preserves_mem {α β : Type} {P : α → Prop} (f : α → β → α) :
    ∀ (l : List β) (s : α), (∀ a b, b ∈ l → P a → P (f a b)) → P s → P (l.foldl f s)
  | [], _, _, hs => hs
  | b :: rest, s, hf, hs =>
    foldl_preserves_mem f rest (f s b)
      (fun a b2 hb2 => hf a b2 (List.mem_cons_of_mem _ hb2))
      (hf s b (List.mem_cons_self _ _) hs)

theorem mem_coe_range {n : Nat} {z : Int}
    (h : z ∈ ((List.range n).flatMap fun a => pure ((a : Nat) : Int))) : 0 ≤ z := by
  rcases List.mem_flatMap.mp h with ⟨a, -, ha⟩
  simp only [List.pure_def, List.mem_singleton] at ha
  omega

theorem orbExcavate_bedrock (m : GridMap) (size : Nat) {X Y : Int}
    (h : bedrockAt m X Y) : bedrockAt (orbExcavate m size) X Y := by
  unfold orbExcavate
  refine @foldl_preserves_mem GridMap Int (fun g => bedrockAt g X Y) _ _ _ ?_ h
  intro m1 dz hdz hm1
  have hdz0 : 0 ≤ dz := mem_coe_range hdz
  dsimp only
  refine @foldl_preserves GridMap Int (fun g => bedrockAt g X Y) _ _ _ ?_ hm1
  intro m2 dy hm2
  dsimp only
  refine @foldl_preserves GridMap Int (fun g => bedrockAt g X Y) _ _ _ ?_ hm2
  intro m3 dx hm3
  dsimp only
  split
  · exact bedrockAt_setB hm3 _ _ _ _ (fun hh => by omega)
  · exact hm3

theorem foldl_topmost_ge (m : GridMap) (x y : Int) :
    ∀ (l : List Nat) (acc : Option Int),
      (∀ z, acc = some z → 0 ≤ z) → (∀ dz ∈ l, (dz : Int) ≤ (WORLD_HEIGHT : Int) - 1) →
      ∀ z, (l.foldl (fun (acc : Option Int) dz =>
        match acc with
        | some z => some z
        | none =>
          let z : Int := (WORLD_HEIGHT : Int) - 1 - dz
          if getB m x y z ≠ none then some z else none) acc) = some z → 0 ≤ z
  | [], _, hacc, _, z, hz => hacc z hz
  | dz :: rest, acc, hacc, hmem, z, hz => by
    refine foldl_topmost_ge m x y rest _ ?_
      (fun d hd => hmem d (List.mem_cons_of_mem _ hd)) z hz
    intro w hw
    cases acc with
    | some v =>
      have hv : v = w := by simpa using hw
      exact hv ▸ hacc v rfl
    | none =>
      have hb := hmem dz (List.mem_cons_self _ _)
      dsimp only at hw
      split at hw
      · have hww : (WORLD_HEIGHT : Int) - 1 - dz = w := by simpa using hw
        omega
      · exact Option.noConfusion hw

theorem topmostSolid_nonneg (m : GridMap) (x y : Int) (h : topmostSolid m x y ≠ -1) :
    0 ≤ topmostSolid m x y := by
  have key : ∀ acc : Option Int, (∀ z, acc = some z → 0 ≤ z) →
      acc.getD (-1) ≠ -1 → 0 ≤ acc.getD (-1) := by
    intro acc hacc hne
    cases acc with
    | none => exact absurd rfl hne
    | some z => exact hacc z rfl
  refine key _ ?_ h
  intro z hz
  refine foldl_topmost_ge m x y (List.range WORLD_HEIGHT) none (fun w hw => by cases hw)
    (fun dz hdz => ?_) z hz
  have hlt := List.mem_range.mp hdz
  omega

theorem lake_fill_bedrock {X Y : Int} (m : GridMap) (x y sz : Int) (n : Nat)
    (hsz : 0 ≤ sz) (h : bedrockAt m X Y) :
    bedrockAt (((List.range n).flatMap fun a => pure ((a : Nat) : Int)).foldl
      (fun m i => setB m x y (sz + 1 + i) (some (mkBlock ICE))) m) X Y := by
  refine @foldl_preserves_mem GridMap Int (fun g => bedrockAt g X Y) _ _ _ ?_ h
  intro m1 i hi hm1
  have hi0 : 0 ≤ i := mem_coe_range hi
  exact bedrockAt_setB hm1 _ _ _ _ (fun hh => by omega)

theorem lakePass_bedrock (m : GridMap) (size bh : Nat) {X Y : Int}
    (h : bedrockAt m X Y) : bedrockAt (lakePass m size bh) X Y := by
  unfold lakePass
  dsimp only
  refine @foldl_preserves GridMap Int (fun g => bedrockAt g X Y) _ _ _ ?_ h
  intro m1 y hm1
  dsimp only
  refine @foldl_preserves GridMap Int (fun g => bedrockAt g X Y) _ _ _ ?_ hm1
  intro m2 x hm2
  dsimp only
  split
  case isTrue hcond =>
    have hsz := topmostSolid_nonneg m2 x y hcond.1
    have hfill := lake_fill_bedrock m2 x y (topmostSolid m2 x y)
      (((bh : Int) - 4 - topmostSolid m2 x y).toNat) hsz hm2
    split
    case h_1 b heq =>
      split
      case isTrue hbt =>
        refine bedrockAt_setB hfill x y (topmostSolid m2 x y) _ ?_
        rintro ⟨h1, h2, h3⟩
        subst h1
        subst h2
        rw [h3] at heq hfill
        unfold bedrockAt at hfill
        have hb : b = mkBlock BEDROCK := by
          have hbb := heq.symm.trans hfill
          injection hbb
        rw [hb] at hbt
        exact absurd hbt (by decide)
      case isFalse hbt => exact hfill
    case h_2 heq => exact hfill
  case isFalse hcond => exact hm2

theorem bedrockAt_setIfAir {m : GridMap} {X Y : Int} (h : bedrockAt m X Y)
    (a b z : Int) (v : Option Block) : bedrockAt (setIfAir m a b z v) X Y := by
  unfold setIfAir
  split
  case isTrue hg =>
    refine bedrockAt_setB h a b z v ?_
    rintro ⟨h1, h2, h3⟩
    subst h1
    subst h2
    subst h3
    rw [h] at hg
    exact Option.noConfusion hg
  case isFalse hg => exact h

theorem bedrockAt_placeVine {X Y : Int} : ∀ (n : Nat) (m : GridMap) (x y z : Int),
    bedrockAt m X Y → bedrockAt (placeVine m x y z n) X Y
  | 0, _, _, _, _, h => h
  | n + 1, m, x, y, z, h => by
    simp only [placeVine]
    split
    case isTrue hc =>
      exact bedrockAt_placeVine n _ x y (z - 1)
        (bedrockAt_setB h x y z _ (fun hh => absurd hh.2.2 (by have := hc.1; omega)))
    case isFalse hc => exact h

theorem generateIceSpike_bedrock (m : GridMap) (x y startZ : Int) (cs s : Nat)
    {X Y : Int} (h : bedrockAt m X Y) :
    bedrockAt (generateIceSpike m x y startZ cs s).1 X Y := by
  unfold generateIceSpike
  dsimp only
  split
  case isTrue _ => exact h
  case isFalse _ =>
    dsimp only
    refine bedrockAt_setIfAir ?_ _ _ _ _
    refine @foldl_preserves GridMap Int (fun g => bedrockAt g X Y) _ _ _ ?_ ?_
    · intro m1 j hm1
      dsimp only
      refine @foldl_preserves GridMap Int (fun g => bedrockAt g X Y) _ _ _ ?_ hm1
      intro m2 k hm2
      dsimp only
      repeat' split
      all_goals first
        | exact hm2
        | exact bedrockAt_setIfAir hm2 _ _ _ _
    · refine @foldl_preserves GridMap Int (fun g => bedrockAt g X Y) _ _ _ ?_ h
      intro m1 hh hm1
      dsimp only
      refine @foldl_preserves GridMap Int (fun g => bedrockAt g X Y) _ _ _ ?_ hm1
      intro m2 dx hm2
      dsimp only
      refine @foldl_preserves GridMap Int (fun g => bedrockAt g X Y) _ _ _ ?_ hm2
      intro m3 dy hm3
      exact bedrockAt_setIfAir hm3 _ _ _ _

theorem growSpruceTree_bedrock (m : GridMap) (x y startZ : Int) (cs s minH maxH : Nat)
    (hs : 1 ≤ startZ) {X Y : Int} (h : bedrockAt m X Y) :
    bedrockAt (growSpruceTree m x y startZ cs s minH maxH).1 X Y := by
  unfold growSpruceTree
  dsimp only
  split
  case isTrue _ => exact h
  case isFalse _ =>
    dsimp only
    refine @foldl_preserves (GridMap × Nat × Nat) Int
      (fun acc => bedrockAt acc.1 X Y) _ _ _ ?_ ?_
    · intro a layerFromTop ha
      obtain ⟨m1, s1, radius⟩ := a
      dsimp only at ha ⊢
      refine @foldl_preserves (GridMap × Nat) Int
        (fun acc => bedrockAt acc.1 X Y) _ _ _ ?_ ha
      intro a2 dy ha2
      dsimp only
      refine @foldl_preserves (GridMap × Nat) Int
        (fun acc => bedrockAt acc.1 X Y) _ _ _ ?_ ha2
      intro a3 dx ha3
      obtain ⟨m2, s2⟩ := a3
      dsimp only at ha3 ⊢
      repeat' split
      all_goals first
        | exact ha3
        | exact bedrockAt_setIfAir ha3 _ _ _ _
    · dsimp only
      refine @foldl_preserves_mem GridMap Int (fun g => bedrockAt g X Y) _ _ _ ?_ h
      intro m1 hh hmem hm1
      have h0 : 0 ≤ hh := mem_coe_range hmem
      split
      · exact bedrockAt_setB hm1 _ _ _ _ (fun he => by omega)
      · exact hm1

theorem trunkColumn_bedrock (m : GridMap) (x y startZ : Int) (th : Nat) (t : BlockType)
    (hs : 1 ≤ startZ) {X Y : Int} (h : bedrockAt m X Y) :
    bedrockAt (trunkColumn m x y startZ th t) X Y := by
  unfold trunkColumn
  refine @foldl_preserves_mem GridMap Int (fun g => bedrockAt g X Y) _ _ _ ?_ h
  intro m1 hh hmem hm1
  have h0 : 0 ≤ hh := mem_coe_range hmem
  dsimp only
  split
  · exact bedrockAt_setB hm1 _ _ _ _ (fun he => by omega)
  · exact hm1

theorem jungleTrunk_bedrock (m : GridMap) (x y startZ : Int) (th : Nat)
    (hs : 1 ≤ startZ) {X Y : Int} (h : bedrockAt m X Y) :
    bedrockAt (jungleTrunk m x y startZ th) X Y := by
  unfold jungleTrunk
  refine @foldl_preserves_mem GridMap Int (fun g => bedrockAt g X Y) _ _ _ ?_ h
  intro m1 hh hmem hm1
  have h0 : 0 ≤ hh := mem_coe_range hmem
  dsimp only
  refine @foldl_preserves GridMap Int (fun g => bedrockAt g X Y) _ _ _ ?_ hm1
  intro m2 dx hm2
  dsimp only
  refine @foldl_preserves GridMap Int (fun g => bedrockAt g X Y) _ _ _ ?_ hm2
  intro m3 dy hm3
  exact bedrockAt_setB hm3 _ _ _ _ (fun he => by omega)

theorem jungleCanopy_bedrock (x y cz : Int) (cs : Nat) (acc0 : GridMap × Nat)
    {X Y : Int} (h : bedrockAt acc0.1 X Y) :
    bedrockAt (jungleCanopy x y cz cs acc0).1 X Y := by
  unfold jungleCanopy
  refine @foldl_preserves (GridMap × Nat) Int
    (fun acc => bedrockAt acc.1 X Y) _ _ _ ?_ h
  intro a i ha
  dsimp only
  refine @foldl_preserves (GridMap × Nat) Int
    (fun acc => bedrockAt acc.1 X Y) _ _ _ ?_ ha
  intro a2 j ha2
  dsimp only
  refine @foldl_preserves (GridMap × Nat) Int
    (fun acc => bedrockAt acc.1 X Y) _ _ _ ?_ ha2
  intro a3 k ha3
  obtain ⟨m2, s2⟩ := a3
  dsimp only at ha3 ⊢
  repeat' split
  all_goals first
    | exact ha3
    | exact bedrockAt_setIfAir ha3 _ _ _ _

theorem jungleVines_bedrock (x y : Int) (th : Nat) {X Y : Int} :
    ∀ (pots : List (Int × Int × Int)) (acc : GridMap × Nat),
      bedrockAt acc.1 X Y → bedrockAt (jungleVines x y th pots acc).1 X Y
  | [], _, h => h
  | pos :: rest, acc, h => by
    simp only [jungleVines]
    split
    · split
      · exact jungleVines_bedrock x y th rest _ h
      · exact jungleVines_bedrock x y th rest _
          (bedrockAt_placeVine _ _ _ _ _ h)
    · exact jungleVines_bedrock x y th rest _ h

theorem growJungleTree_bedrock (m : GridMap) (x y startZ : Int) (cs s minH maxH : Nat)
    (hs : 1 ≤ startZ) {X Y : Int} (h : bedrockAt m X Y) :
    bedrockAt (growJungleTree m x y startZ cs s minH maxH).1 X Y := by
  unfold growJungleTree
  dsimp only
  split
  · exact h
  · exact jungleVines_bedrock _ _ _ _ _
      (jungleCanopy_bedrock _ _ _ _ _ (jungleTrunk_bedrock _ _ _ _ _ hs h))

theorem regularCanopy_bedrock (x y ls : Int) (cs : Nat) (acc0 : GridMap × Nat)
    {X Y : Int} (h : bedrockAt acc0.1 X Y) :
    bedrockAt (regularCanopy x y ls cs acc0).1 X Y := by
  unfold regularCanopy
  refine @foldl_preserves (GridMap × Nat) Int
    (fun acc => bedrockAt acc.1 X Y) _ _ _ ?_ h
  intro a i ha
  dsimp only
  refine @foldl_preserves (GridMap × Nat) Int
    (fun acc => bedrockAt acc.1 X Y) _ _ _ ?_ ha
  intro a2 j ha2
  dsimp only
  refine @foldl_preserves (GridMap × Nat) Int
    (fun acc => bedrockAt acc.1 X Y) _ _ _ ?_ ha2
  intro a3 k ha3
  obtain ⟨m2, s2⟩ := a3
  dsimp only at ha3 ⊢
  repeat' split
  all_goals first
    | exact ha3
    | exact bedrockAt_setIfAir ha3 _ _ _ _

theorem regularVines_bedrock (th : Nat) {X Y : Int} :
    ∀ (pots : List (Int × Int × Int)) (acc : GridMap × Nat),
      bedrockAt acc.1 X Y → bedrockAt (regularVines th pots acc).1 X Y
  | [], _, h => h
  | pos :: rest, acc, h => by
    simp only [regularVines]
    split
    · exact regularVines_bedrock th rest _
        (bedrockAt_placeVine _ _ _ _ _ h)
    · exact regularVines_bedrock th rest _ h

theorem growRegularTree_bedrock (m : GridMap) (x y startZ : Int) (cs s minH maxH : Nat)
    (hv : Bool) (hs : 1 ≤ startZ) {X Y : Int} (h : bedrockAt m X Y) :
    bedrockAt (growRegularTree m x y startZ cs s minH maxH hv).1 X Y := by
  unfold growRegularTree
  dsimp only
  split
  · exact h
  · have hcan := regularCanopy_bedrock x y (startZ +
      ↑(minH + (qfloor (qmul (srNextQ s).2 (Q.ofInt (↑maxH - ↑minH + 1)))).toNat) - 1) cs
      (trunkColumn m x y startZ
        (minH + (qfloor (qmul (srNextQ s).2 (Q.ofInt (↑maxH - ↑minH + 1)))).toNat) LOG,
        (srNextQ s).1)
      (trunkColumn_bedrock m x y startZ _ LOG hs h)
    split
    · split
      · exact regularVines_bedrock _ _ _ (bedrockAt_setB hcan x y _ _ (fun he => by omega))
      · exact regularVines_bedrock _ _ _ hcan
    · split
      · exact bedrockAt_setB hcan x y _ _ (fun he => by omega)
      · exact hcan

theorem growTree_bedrock (m : GridMap) (x y startZ : Int) (cs s minH maxH : Nat)
    (hv : Bool) (bi : BiomeType) (hs : 1 ≤ startZ) {X Y : Int} (h : bedrockAt m X Y) :
    bedrockAt (growTree m x y startZ cs s minH maxH hv bi).1 X Y := by
  cases bi
  case JUNGLE => exact growJungleTree_bedrock m x y startZ cs s minH maxH hs h
  case SNOW => exact growSpruceTree_bedrock m x y startZ cs s minH maxH hs h
  all_goals exact growRegularTree_bedrock m x y startZ cs s minH maxH hv hs h

theorem jungleTreeLoop_bedrock (size : Nat) (isC : Bool) (minH maxH numTrees : Nat)
    {X Y : Int} :
    ∀ (tp att : Nat) (m : GridMap) (s : Nat), bedrockAt m X Y →
      bedrockAt (jungleTreeLoop size isC minH maxH numTrees tp att m s).1 X Y
  | _, 0, _, _, h => h
  | tp, att + 1, m, s, h => by
    simp only [jungleTreeLoop]
    split
    case isTrue _ => exact h
    case isFalse _ =>
      split
      case isTrue _ =>
        exact jungleTreeLoop_bedrock size isC minH maxH numTrees tp att m _ h
      case isFalse _ =>
        split
        case isTrue _ =>
          exact jungleTreeLoop_bedrock size isC minH maxH numTrees tp att m _ h
        case isFalse hsz =>
          split
          case isTrue _ =>
            refine jungleTreeLoop_bedrock size isC minH maxH numTrees (tp + 1) att _ _ ?_
            exact growJungleTree_bedrock _ _ _ _ _ _ _ _ (by omega) h
          case isFalse _ =>
            exact jungleTreeLoop_bedrock size isC minH maxH numTrees tp att m _ h

theorem snowSpikeStep_bedrock (size : Nat) (c : Bool) (acc : GridMap × Nat)
    {X Y : Int} (h : bedrockAt acc.1 X Y) : bedrockAt (snowSpikeStep size c acc).1 X Y := by
  unfold snowSpikeStep
  dsimp only
  split
  · exact h
  · split
    · exact generateIceSpike_bedrock _ _ _ _ _ _ h
    · exact h

theorem snowTreeStep_bedrock (bp : BiomeParams) (size : Nat) (c : Bool)
    (acc : GridMap × Nat) (x y : Int) {X Y : Int} (h : bedrockAt acc.1 X Y) :
    bedrockAt (snowTreeStep bp size c acc x y).1 X Y := by
  unfold snowTreeStep
  dsimp only
  split
  · exact h
  · split
    case isTrue _ =>
      split
      case isTrue hsz =>
        exact growTree_bedrock _ _ _ _ _ _ _ _ _ _ (by have := hsz.1; omega) h
      case isFalse _ => exact h
    case isFalse _ => exact h

theorem defaultTreeStep_bedrock (bp : BiomeParams) (bi : BiomeType) (size : Nat)
    (c : Bool) (acc : GridMap × Nat) (x y : Int) {X Y : Int} (h : bedrockAt acc.1 X Y) :
    bedrockAt (defaultTreeStep bp bi size c acc x y).1 X Y := by
  unfold defaultTreeStep
  dsimp only
  split
  · exact h
  · split
    case isTrue _ =>
      split
      case isTrue hsz =>
        exact growTree_bedrock _ _ _ _ _ _ _ _ _ _ (by have := hsz.1; omega) h
      case isFalse _ => exact h
    case isFalse _ => exact h

theorem snowSpikesRun_bedrock (size : Nat) (c : Bool) (m : GridMap) (s1 : Nat)
    {X Y : Int} (h : bedrockAt m X Y) : bedrockAt (snowSpikesRun size c m s1).1 X Y := by
  unfold snowSpikesRun
  refine @foldl_preserves (GridMap × Nat) Nat
    (fun acc => bedrockAt acc.1 X Y) _ _ _ ?_ h
  intro a n ha
  exact snowSpikeStep_bedrock _ _ _ ha

theorem snowTreeScan_bedrock (bp : BiomeParams) (size : Nat) (c : Bool) (m : GridMap)
    (s1 : Nat) {X Y : Int} (h : bedrockAt m X Y) :
    bedrockAt (snowTreeScan bp size c m s1).1 X Y := by
  unfold snowTreeScan
  refine @foldl_preserves (GridMap × Nat) Int
    (fun acc => bedrockAt acc.1 X Y) _ _ _ ?_ h
  intro a j ha
  refine @foldl_preserves (GridMap × Nat) Int
    (fun acc => bedrockAt acc.1 X Y) _ _ _ ?_ ha
  intro a2 k ha2
  exact snowTreeStep_bedrock _ _ _ _ _ _ ha2

theorem snowPass_bedrock (bp : BiomeParams) (c : Bool) (size : Nat)
    (m : GridMap) (s : Nat) {X Y : Int} (h : bedrockAt m X Y) :
    bedrockAt (snowPass bp c size m s).1 X Y := by
  unfold snowPass
  split
  case isTrue _ => exact snowSpikesRun_bedrock size c m _ h
  case isFalse _ => exact snowTreeScan_bedrock bp size c m _ h

theorem junglePass_bedrock (bp : BiomeParams) (c : Bool) (size : Nat)
    (m : GridMap) (s : Nat) {X Y : Int} (h : bedrockAt m X Y) :
    bedrockAt (junglePass bp c size m s).1 X Y := by
  unfold junglePass
  exact jungleTreeLoop_bedrock _ _ _ _ _ 0 _ m _ h

theorem defaultPass_bedrock (bp : BiomeParams) (bi : BiomeType) (c : Bool) (size : Nat)
    (m : GridMap) (s : Nat) {X Y : Int} (h : bedrockAt m X Y) :
    bedrockAt (defaultPass bp bi c size m s).1 X Y := by
  unfold defaultPass
  refine @foldl_preserves (GridMap × Nat) Int
    (fun acc => bedrockAt acc.1 X Y) _ _ _ ?_ h
  intro a j ha
  refine @foldl_preserves (GridMap × Nat) Int
    (fun acc => bedrockAt acc.1 X Y) _ _ _ ?_ ha
  intro a2 k ha2
  exact defaultTreeStep_bedrock _ _ _ _ _ _ _ ha2

theorem treePass_bedrock (bp : BiomeParams) (bi : BiomeType) (cx cy : Int) (size : Nat)
    (m : GridMap) (s : Nat) {X Y : Int} (h : bedrockAt m X Y) :
    bedrockAt (treePass bp bi cx cy size m s).1 X Y := by
  cases bi
  case SNOW =>
    simp only [treePass]
    split
    · exact h
    · exact snowPass_bedrock bp _ size m s h
  case JUNGLE =>
    simp only [treePass]
    split
    · exact h
    · exact junglePass_bedrock bp _ size m s h
  all_goals (
    simp only [treePass]
    split
    · exact h
    · exact defaultPass_bedrock bp _ _ size m s h)

theorem generatedPre_size_pos (w : String) (cx cy : Int) (bi : BiomeType) :
    0 < ((generatedPre w cx cy bi).2.1 : Int) := by
  unfold generatedPre
  dsimp only
  simp only [MIN_CHUNK_SIZE]
  omega

theorem generatedPre_bedrock (w : String) (cx cy : Int) (bi : BiomeType) {x y : Int}
    (hx0 : 0 ≤ x) (hy0 : 0 ≤ y)
    (hx : x < ((generatedPre w cx cy bi).2.1 : Int))
    (hy : y < ((generatedPre w cx cy bi).2.1 : Int)) :
    bedrockAt (generatedPre w cx cy bi).1 x y := by
  unfold generatedPre at hx hy ⊢
  dsimp only at hx hy ⊢
  refine treePass_bedrock _ _ _ _ _ _ _ ?_
  split
  · refine lakePass_bedrock _ _ _ ?_
    split
    · exact orbExcavate_bedrock _ _
        (buildBaseMap_bedrock _ _ _ _ _ _ _ _ _ _ _ hx0 hy0 hx hy)
    · exact buildBaseMap_bedrock _ _ _ _ _ _ _ _ _ _ _ hx0 hy0 hx hy
  · split
    · exact orbExcavate_bedrock _ _
        (buildBaseMap_bedrock _ _ _ _ _ _ _ _ _ _ _ hx0 hy0 hx hy)
    · exact buildBaseMap_bedrock _ _ _ _ _ _ _ _ _ _ _ hx0 hy0 hx hy

theorem placeBlock_occupied_noop (st : EngineState) (fuel : Nat) (c : Chunk)
    (hb hf : Int × Int × Int)
    (hhb : st.hoveredBlock = some hb) (hhf : st.hoveredFace = some hf)
    (hc : lookupA st.chunks
      (getChunkKey st.currentChunkCoords.1 st.currentChunkCoords.2) = some c)
    (hocc : getB c.map (hb.1 + hf.1) (hb.2.1 + hf.2.1) (hb.2.2 + hf.2.2) ≠ none) :
    placeBlock st fuel = (st, []) := by
  unfold placeBlock
  rw [hhb, hhf]
  cases hmode : st.mode with
  | CAMERA => rfl
  | EDIT =>
    cases hsel : st.selectedBlockType with
    | none => rfl
    | some t =>
      rw [hc]
      dsimp only
      split
      · rfl
      · rfl

/-- C2 (amended): the generation pipeline (steps 1-7: bedrock floor,
column fill with caves, orb crater, frozen lakes, structures) leaves a
full-durability Bedrock block at z = 0 of every in-range column, and
`placeBlock` silently rejects any occupied target cell, so placement can
never replace that floor.  The original claim additionally asserted that
every engine operation preserves the z = 0 Bedrock; that part is false of
the write path — `modifyBlock` has no Bedrock guard (see the
counterexample), so an explicit clear at z = 0 removes it. -/
theorem C2_bedrock_amended (w : String) (cx cy : Int) (bi : BiomeType) (x y : Int)
    (hx0 : 0 ≤ x) (hy0 : 0 ≤ y)
    (hx : x < ((generatedPre w cx cy bi).2.1 : Int))
    (hy : y < ((generatedPre w cx cy bi).2.1 : Int)) :
    getB (generatedPre w cx cy bi).1 x y 0 = some (mkBlock BEDROCK) ∧
    ∀ (st : EngineState) (fuel : Nat) (c : Chunk) (hb hf : Int × Int × Int),
      st.hoveredBlock = some hb → st.hoveredFace = some hf →
      lookupA st.chunks
        (getChunkKey st.currentChunkCoords.1 st.currentChunkCoords.2) = some c →
      getB c.map (hb.1 + hf.1) (hb.2.1 + hf.2.1) (hb.2.2 + hf.2.2) ≠ none →
      placeBlock st fuel = (st, []) :=
  ⟨generatedPre_bedrock w cx cy bi hx0 hy0 hx hy,
   fun st fuel c hb hf h1 h2 h3 h4 =>
     placeBlock_occupied_noop st fuel c hb hf h1 h2 h3 h4⟩

/-- Witness for C2 (amended): column (0,0) of the chunk at (1,1) of seed
"w", and the occupied-target placement rejection on the sample state
(hovered face (0,0,0): the target is the hovered stone voxel itself). -/
theorem C2_bedrock_amended_witness :
    getB (generatedPre "w" 1 1 BiomeType.GRASSLAND).1 0 0 0 = some (mkBlock BEDROCK) ∧
    placeBlock { sampleState with hoveredFace := some (0, 0, 0) } 200 =
      ({ sampleState with hoveredFace := some (0, 0, 0) }, []) := by
  have h := C2_bedrock_amended "w" 1 1 BiomeType.GRASSLAND 0 0 (by decide) (by decide)
    (generatedPre_size_pos "w" 1 1 BiomeType.GRASSLAND)
    (generatedPre_size_pos "w" 1 1 BiomeType.GRASSLAND)
  exact ⟨h.1, h.2 { sampleState with hoveredFace := some (0, 0, 0) } 200 sampleChunk
    (0, 0, 1) (0, 0, 0) rfl rfl (by decide) (by decide)⟩

/-! # Claim C4: the computed light field is a fixed point of propagation -/

theorem lightEmission_zero (t : BlockType) : (BLOCK_DEFINITIONS t).lightEmission = 0 := by
  cases t <;> rfl

theorem emissionAt_zero (m : GridMap) (x y z : Int) : emissionAt m x y z = 0 := by
  unfold emissionAt
  cases hb : getB m x y z with
  | none => rfl
  | some b => exact lightEmission_zero b.type

theorem dampAt_pos (m : GridMap) (x y z : Int) : 1 ≤ dampAt m x y z := by
  unfold dampAt
  cases hb : getB m x y z with
  | none => show 1 ≤ (BLOCK_DEFINITIONS AIR).lightDampening; decide
  | some b =>
    show 1 ≤ (BLOCK_DEFINITIONS b.type).lightDampening
    cases htb : b.type <;> decide

theorem getLight_oob (lm : LightGrid) (x y z : Int) (size : Nat)
    (h : x < 0 ∨ (size : Int) ≤ x ∨ y < 0 ∨ (size : Int) ≤ y ∨
      z < 0 ∨ (WORLD_HEIGHT : Int) ≤ z) : getLight lm x y z size = 0 := by
  unfold getLight
  rw [if_pos h]

theorem getLight_setLight_self (lm : LightGrid) (x y z : Int) (v : Nat) (size : Nat)
    (h : ¬(x < 0 ∨ (size : Int) ≤ x ∨ y < 0 ∨ (size : Int) ≤ y ∨
      z < 0 ∨ (WORLD_HEIGHT : Int) ≤ z)) :
    getLight (setLight lm x y z v size) x y z size = v := by
  unfold getLight setLight
  rw [if_neg h, if_neg h]
  exact getL_setL_self lm (by omega) (by omega) (by omega) v

theorem getLight_setLight_ne (lm : LightGrid) (x y z x2 y2 z2 : Int) (v : Nat)
    (size : Nat) (h : ¬(x2 = x ∧ y2 = y ∧ z2 = z)) :
    getLight (setLight lm x2 y2 z2 v size) x y z size = getLight lm x y z size := by
  unfold setLight
  by_cases hw : x2 < 0 ∨ (size : Int) ≤ x2 ∨ y2 < 0 ∨ (size : Int) ≤ y2 ∨
      z2 < 0 ∨ (WORLD_HEIGHT : Int) ≤ z2
  · rw [if_pos hw]
  · rw [if_neg hw]
    unfold getLight
    by_cases hr : x < 0 ∨ (size : Int) ≤ x ∨ y < 0 ∨ (size : Int) ≤ y ∨
        z < 0 ∨ (WORLD_HEIGHT : Int) ≤ z
    · rw [if_pos hr, if_pos hr]
    · rw [if_neg hr, if_neg hr]
      exact getL_setL_ne lm h v

theorem bfsBody_props (m : GridMap) (size : Nat) (current : Nat) (pos : Int × Int × Int)
    (acc : LightGrid × List (Int × Int × Int)) (d : Int × Int × Int) :
    (∀ p : Int × Int × Int,
      getLight acc.1 p.1 p.2.1 p.2.2 size ≤
        getLight (bfsBody m size current pos acc d).1 p.1 p.2.1 p.2.2 size) ∧
    (∀ q, q ∈ acc.2 → q ∈ (bfsBody m size current pos acc d).2) ∧
    (∀ p : Int × Int × Int,
      getLight (bfsBody m size current pos acc d).1 p.1 p.2.1 p.2.2 size ≠
        getLight acc.1 p.1 p.2.1 p.2.2 size →
      p ∈ (bfsBody m size current pos acc d).2) := by
  obtain ⟨lm, out⟩ := acc
  unfold bfsBody
  dsimp only
  split
  case isTrue _ => exact ⟨fun p => le_refl _, fun q h => h, fun p h => absurd rfl h⟩
  case isFalse hbnd =>
    split
    case isTrue hlt =>
      refine ⟨?_, ?_, ?_⟩
      · intro p
        by_cases hp : p.1 = pos.1 + d.1 ∧ p.2.1 = pos.2.1 + d.2.1 ∧ p.2.2 = pos.2.2 + d.2.2
        · obtain ⟨h1, h2, h3⟩ := hp
          rw [h1, h2, h3, getLight_setLight_self _ _ _ _ _ _ hbnd]
          omega
        · rw [getLight_setLight_ne _ _ _ _ _ _ _ _ _
            (fun hh => hp ⟨hh.1.symm, hh.2.1.symm, hh.2.2.symm⟩)]
      · intro q hq
        exact List.mem_append_left _ hq
      · intro p hch
        by_cases hp : p.1 = pos.1 + d.1 ∧ p.2.1 = pos.2.1 + d.2.1 ∧ p.2.2 = pos.2.2 + d.2.2
        · obtain ⟨h1, h2, h3⟩ := hp
          refine List.mem_append_right _ ?_
          have hpe : p = (pos.1 + d.1, pos.2.1 + d.2.1, pos.2.2 + d.2.2) := by
            rw [Prod.ext_iff, Prod.ext_iff]
            exact ⟨h1, h2, h3⟩
          rw [hpe]
          exact List.mem_singleton.mpr rfl
        · exact absurd (getLight_setLight_ne _ _ _ _ _ _ _ _ _
            (fun hh => hp ⟨hh.1.symm, hh.2.1.symm, hh.2.2.symm⟩)) hch
    case isFalse _ => exact ⟨fun p => le_refl _, fun q h => h, fun p h => absurd rfl h⟩

theorem bfsFold_props (m : GridMap) (size : Nat) (current : Nat) (pos : Int × Int × Int) :
    ∀ (dirs : List (Int × Int × Int)) (acc : LightGrid × List (Int × Int × Int)),
      (∀ p : Int × Int × Int,
        getLight acc.1 p.1 p.2.1 p.2.2 size ≤
          getLight (dirs.foldl (bfsBody m size current pos) acc).1 p.1 p.2.1 p.2.2 size) ∧
      (∀ q, q ∈ acc.2 → q ∈ (dirs.foldl (bfsBody m size current pos) acc).2) ∧
      (∀ p : Int × Int × Int,
        getLight (dirs.foldl (bfsBody m size current pos) acc).1 p.1 p.2.1 p.2.2 size ≠
          getLight acc.1 p.1 p.2.1 p.2.2 size →
        p ∈ (dirs.foldl (bfsBody m size current pos) acc).2)
  | [], acc => ⟨fun p => le_refl _, fun q h => h, fun p h => absurd rfl h⟩
  | d :: rest, acc => by
    have hstep := bfsBody_props m size current pos acc d
    have ih := bfsFold_props m size current pos rest (bfsBody m size current pos acc d)
    rw [List.foldl_cons]
    refine ⟨?_, ?_, ?_⟩
    · intro p
      exact le_trans (hstep.1 p) (ih.1 p)
    · intro q hq
      exact ih.2.1 q (hstep.2.1 q hq)
    · intro p hne
      by_cases hmid : getLight (bfsBody m size current pos acc d).1 p.1 p.2.1 p.2.2 size =
          getLight acc.1 p.1 p.2.1 p.2.2 size
      · exact ih.2.2 p (fun hh => hne (hh.trans hmid))
      · exact ih.2.1 p (hstep.2.2 p hmid)

theorem bfsBody_edge (m : GridMap) (size : Nat) (current : Nat) (pos : Int × Int × Int)
    (acc : LightGrid × List (Int × Int × Int)) (d : Int × Int × Int)
    (hin : inBoundsL size (addP pos d)) :
    (current : Int) - (dampAt m (addP pos d).1 (addP pos d).2.1 (addP pos d).2.2 : Int) ≤
      (getLight (bfsBody m size current pos acc d).1 (addP pos d).1 (addP pos d).2.1
        (addP pos d).2.2 size : Int) := by
  obtain ⟨lm, out⟩ := acc
  unfold addP at hin ⊢
  obtain ⟨hin1, hin2, hin3, hin4, hin5, hin6⟩ := hin
  dsimp only at hin1 hin2 hin3 hin4 hin5 hin6 ⊢
  unfold bfsBody
  dsimp only
  rw [if_neg (by omega)]
  split
  case isTrue hlt =>
    dsimp only
    rw [getLight_setLight_self _ _ _ _ _ _ (by omega)]
    omega
  case isFalse hge =>
    dsimp only
    omega

theorem bfsFold_edge (m : GridMap) (size : Nat) (current : Nat) (pos : Int × Int × Int) :
    ∀ (dirs : List (Int × Int × Int)) (acc : LightGrid × List (Int × Int × Int))
      (d : Int × Int × Int), d ∈ dirs → inBoundsL size (addP pos d) →
      (current : Int) - (dampAt m (addP pos d).1 (addP pos d).2.1 (addP pos d).2.2 : Int) ≤
        (getLight (dirs.foldl (bfsBody m size current pos) acc).1 (addP pos d).1
          (addP pos d).2.1 (addP pos d).2.2 size : Int)
  | [], _, _, hd, _ => absurd hd (List.not_mem_nil _)
  | d0 :: rest, acc, d, hd, hin => by
    rw [List.foldl_cons]
    rcases List.mem_cons.mp hd with heq | hrest
    · subst heq
      refine le_trans (bfsBody_edge m size current pos acc d hin) ?_
      exact Int.ofNat_le.mpr
        ((bfsFold_props m size current pos rest (bfsBody m size current pos acc d)).1
          (addP pos d))
    · exact bfsFold_edge m size current pos rest (bfsBody m size current pos acc d0)
        d hrest hin

theorem lightDirs_moves (pos : Int × Int × Int) :
    ∀ d ∈ lightDirs, ¬(pos.1 + d.1 = pos.1 ∧ pos.2.1 + d.2.1 = pos.2.1 ∧
      pos.2.2 + d.2.2 = pos.2.2) := by
  intro d hd
  unfold lightDirs at hd
  fin_cases hd <;> dsimp only <;> omega

theorem bfsFold_pos_stable (m : GridMap) (size : Nat) (current : Nat)
    (pos : Int × Int × Int) :
    ∀ (dirs : List (Int × Int × Int)) (acc : LightGrid × List (Int × Int × Int)),
      (∀ d ∈ dirs, ¬(pos.1 + d.1 = pos.1 ∧ pos.2.1 + d.2.1 = pos.2.1 ∧
        pos.2.2 + d.2.2 = pos.2.2)) →
      getLight (dirs.foldl (bfsBody m size current pos) acc).1 pos.1 pos.2.1 pos.2.2 size =
        getLight acc.1 pos.1 pos.2.1 pos.2.2 size
  | [], _, _ => rfl
  | d :: rest, acc, hd => by
    rw [List.foldl_cons, bfsFold_pos_stable m size current pos rest _
      (fun d2 h2 => hd d2 (List.mem_cons_of_mem _ h2))]
    obtain ⟨lm, out⟩ := acc
    unfold bfsBody
    dsimp only
    split
    · rfl
    · split
      · dsimp only
        exact getLight_setLight_ne _ _ _ _ _ _ _ _ _ (hd d (List.mem_cons_self _ _))
      · rfl

theorem pendingOK_step (m : GridMap) (size : Nat) (lm : LightGrid)
    (pos : Int × Int × Int) (rest : List (Int × Int × Int))
    (h : pendingOK m size lm (pos :: rest)) :
    pendingOK m size (bfsStep m size lm pos).1 (rest ++ (bfsStep m size lm pos).2) := by
  unfold pendingOK at h ⊢
  unfold bfsStep
  intro n d hd hin
  by_cases hnp : n = pos
  · subst hnp
    left
    unfold edgeOK
    have hstable : getLight ((lightDirs.foldl (bfsBody m size
        (getLight lm n.1 n.2.1 n.2.2 size) n) (lm, []))).1 n.1 n.2.1 n.2.2 size =
        getLight lm n.1 n.2.1 n.2.2 size :=
      bfsFold_pos_stable m size _ n lightDirs (lm, []) (lightDirs_moves n)
    rw [hstable]
    exact bfsFold_edge m size (getLight lm n.1 n.2.1 n.2.2 size) n lightDirs
      (lm, []) d hd hin
  · rcases h n d hd hin with hok | hmem
    · by_cases hch : getLight ((lightDirs.foldl (bfsBody m size
          (getLight lm pos.1 pos.2.1 pos.2.2 size) pos) (lm, []))).1 n.1 n.2.1 n.2.2 size =
          getLight lm n.1 n.2.1 n.2.2 size
      · left
        unfold edgeOK at hok ⊢
        rw [hch]
        have hmono : (getLight lm (addP n d).1 (addP n d).2.1 (addP n d).2.2 size : Int) ≤
            (getLight ((lightDirs.foldl (bfsBody m size
              (getLight lm pos.1 pos.2.1 pos.2.2 size) pos) (lm, []))).1
              (addP n d).1 (addP n d).2.1 (addP n d).2.2 size : Int) :=
          Int.ofNat_le.mpr ((bfsFold_props m size
            (getLight lm pos.1 pos.2.1 pos.2.2 size) pos lightDirs (lm, [])).1 (addP n d))
        omega
      · right
        refine List.mem_append_right _ ?_
        refine (bfsFold_props m size (getLight lm pos.1 pos.2.1 pos.2.2 size) pos
          lightDirs (lm, [])).2.2 n ?_
        exact hch
    · rcases List.mem_cons.mp hmem with heq | hr
      · exact absurd heq hnp
      · right
        exact List.mem_append_left _ hr

theorem bfsLight_fixedPoint (m : GridMap) (size : Nat) :
    ∀ (fuel : Nat) (lm : LightGrid) (queue : List (Int × Int × Int)),
      pendingOK m size lm queue → (bfsLight m size fuel lm queue).2 = true →
      ∀ n d, d ∈ lightDirs → inBoundsL size (addP n d) →
        edgeOK m size (bfsLight m size fuel lm queue).1 n (addP n d)
  | 0, lm, queue, hpend, hdone => by
    have hq : queue = [] := by
      have hie : queue.isEmpty = true := hdone
      exact List.isEmpty_iff.mp hie
    subst hq
    intro n d hd hin
    rcases hpend n d hd hin with hok | hmem
    · exact hok
    · cases hmem
  | fuel + 1, lm, [], hpend, _ => by
    intro n d hd hin
    rcases hpend n d hd hin with hok | hmem
    · exact hok
    · cases hmem
  | fuel + 1, lm, pos :: rest, hpend, hdone => by
    exact bfsLight_fixedPoint m size fuel (bfsStep m size lm pos).1
      (rest ++ (bfsStep m size lm pos).2) (pendingOK_step m size lm pos rest hpend) hdone

theorem gatherBody_lm (m : GridMap) (size : Nat) (acc : LightGrid × List (Int × Int × Int))
    (p : Int × Int × Int) : (gatherBody m size acc p).1 = acc.1 := by
  obtain ⟨lm, queue⟩ := acc
  unfold gatherBody
  dsimp only
  rw [emissionAt_zero]
  split
  · dsimp only
    rw [if_neg (Nat.not_lt_zero _)]
  · rfl

theorem gatherFold_lm (m : GridMap) (size : Nat) :
    ∀ (ps : List (Int × Int × Int)) (acc : LightGrid × List (Int × Int × Int)),
      (ps.foldl (gatherBody m size) acc).1 = acc.1
  | [], _ => rfl
  | p :: rest, acc => by
    rw [List.foldl_cons, gatherFold_lm m size rest _, gatherBody_lm]

theorem gatherFold_mem (m : GridMap) (size : Nat) :
    ∀ (ps : List (Int × Int × Int)) (acc : LightGrid × List (Int × Int × Int))
      (p : Int × Int × Int),
      (p ∈ acc.2 ∨ (p ∈ ps ∧ 0 < getLight acc.1 p.1 p.2.1 p.2.2 size)) →
      p ∈ (ps.foldl (gatherBody m size) acc).2
  | [], acc, p, h => by
    rcases h with hm | ⟨hp, _⟩
    · exact hm
    · cases hp
  | q :: rest, acc, p, h => by
    rw [List.foldl_cons]
    have hqmem : ∀ r, r ∈ acc.2 → r ∈ (gatherBody m size acc q).2 := by
      intro r hr
      obtain ⟨lm, queue⟩ := acc
      unfold gatherBody
      dsimp only at hr ⊢
      rw [emissionAt_zero]
      split
      · exact List.mem_append_left _ hr
      · exact hr
    rcases h with hm | ⟨hp, hl⟩
    · exact gatherFold_mem m size rest _ p (Or.inl (hqmem p hm))
    · rcases List.mem_cons.mp hp with heq | hr
      · subst heq
        refine gatherFold_mem m size rest _ p (Or.inl ?_)
        obtain ⟨lm, queue⟩ := acc
        dsimp only at hl ⊢
        unfold gatherBody
        dsimp only
        rw [emissionAt_zero]
        rw [if_pos (Or.inl hl)]
        exact List.mem_append_right _ (List.mem_singleton.mpr rfl)
      · refine gatherFold_mem m size rest _ p (Or.inr ⟨hr, ?_⟩)
        rw [gatherBody_lm]
        exact hl

theorem mem_scanPositions (size : Nat) (p : Int × Int × Int) (h : inBoundsL size p) :
    p ∈ scanPositions size := by
  obtain ⟨x, y, z⟩ := p
  obtain ⟨h1, h2, h3, h4, h5, h6⟩ := h
  dsimp only at h1 h2 h3 h4 h5 h6
  unfold scanPositions
  refine List.mem_flatMap.mpr ⟨z.toNat, List.mem_range.mpr ?_, ?_⟩
  · omega
  · refine List.mem_flatMap.mpr ⟨y.toNat, List.mem_range.mpr ?_, ?_⟩
    · omega
    · refine List.mem_map.mpr ⟨x, ?_, ?_⟩
      · show x ∈ (List.range size).flatMap fun a => pure ((a : Nat) : Int)
        refine List.mem_flatMap.mpr ⟨x.toNat, List.mem_range.mpr ?_, ?_⟩
        · omega
        · simp only [List.pure_def, List.mem_singleton]
          omega
      · rw [Int.toNat_of_nonneg h3, Int.toNat_of_nonneg h5]

theorem pendingOK_gather (m : GridMap) (size : Nat) (lm : LightGrid) :
    pendingOK m size (gatherSources m size lm).1 (gatherSources m size lm).2 := by
  unfold pendingOK
  intro n d hd hin
  have hlm : (gatherSources m size lm).1 = lm := by
    unfold gatherSources
    exact gatherFold_lm m size _ _
  by_cases hl : 0 < getLight lm n.1 n.2.1 n.2.2 size
  · by_cases hn : inBoundsL size n
    · right
      unfold gatherSources
      refine gatherFold_mem m size _ _ n (Or.inr ⟨mem_scanPositions size n hn, ?_⟩)
      dsimp only
      exact hl
    · exfalso
      have h0 : getLight lm n.1 n.2.1 n.2.2 size = 0 := by
        refine getLight_oob lm n.1 n.2.1 n.2.2 size ?_
        unfold inBoundsL at hn
        omega
      omega
  · left
    unfold edgeOK
    rw [hlm]
    have hd1 := dampAt_pos m (addP n d).1 (addP n d).2.1 (addP n d).2.2
    omega

/-- **C4.** After the lighting computation finishes (the BFS exhausted its
queue), the stored light field is a fixed point of the propagation
relation: for every in-bounds voxel `n` and every 6-connected in-bounds
neighbour `v = n + d`, `light(n) - dampening(v) <= light(v)` — no further
relaxation step can increase any stored value. -/
theorem C4_light_fixed_point (m : GridMap) (size : Nat) (ambient : Int)
    (isOrbChunk : Bool) (fuel : Nat) (lm0 lmf : LightGrid)
    (hrun : calculateLighting m size ambient isOrbChunk fuel lm0 = (lmf, true)) :
    ∀ n d, d ∈ lightDirs → inBoundsL size n → inBoundsL size (addP n d) →
      (getLight lmf n.1 n.2.1 n.2.2 size : Int)
          - (dampAt m (addP n d).1 (addP n d).2.1 (addP n d).2.2 : Int)
        ≤ (getLight lmf (addP n d).1 (addP n d).2.1 (addP n d).2.2 size : Int) := by
  intro n d hd _hn hvin
  have h1 : (calculateLighting m size ambient isOrbChunk fuel lm0).1 = lmf := by
    rw [hrun]
  have h2 : (calculateLighting m size ambient isOrbChunk fuel lm0).2 = true := by
    rw [hrun]
  unfold calculateLighting at h1 h2
  have he := bfsLight_fixedPoint m size fuel _ _
    (pendingOK_gather m size _) h2 n d hd hvin
  unfold edgeOK at he
  rw [h1] at he
  exact he

set_option maxRecDepth 40000 in
set_option maxHeartbeats 4000000 in
/-- Concrete instantiation of `C4_light_fixed_point`: an empty 1x1-column
chunk under ambient sky light 0, BFS fuel 100; the run terminates and the
edge from (0,0,5) upward to (0,0,6) satisfies the fixed-point inequality. -/
theorem C4_light_fixed_point_witness :
    calculateLighting ([] : GridMap) 1 0 false 100 (emptyLightGrid 1)
        = ((calculateLighting ([] : GridMap) 1 0 false 100 (emptyLightGrid 1)).1, true) ∧
      ((0, 0, 1) : Int × Int × Int) ∈ lightDirs ∧
      inBoundsL 1 ((0, 0, 5) : Int × Int × Int) ∧
      inBoundsL 1 (addP (0, 0, 5) (0, 0, 1)) ∧
      (getLight (calculateLighting ([] : GridMap) 1 0 false 100 (emptyLightGrid 1)).1
            0 0 5 1 : Int) - (dampAt ([] : GridMap) 0 0 6 : Int)
        ≤ (getLight (calculateLighting ([] : GridMap) 1 0 false 100 (emptyLightGrid 1)).1
            0 0 6 1 : Int) :=
  ⟨rfl, by decide, by unfold inBoundsL; decide, by unfold inBoundsL; decide,
    C4_light_fixed_point [] 1 0 false 100 (emptyLightGrid 1) _ rfl
      (0, 0, 5) (0, 0, 1) (by decide) (by unfold inBoundsL; decide)
      (by unfold inBoundsL; decide)⟩
